import Mathlib

/-!
# Artefa-Fest registration/team rule engine — shallow embedding

This file embeds the team-and-registration consistency engine of the
Artefa-Fest Django application (`core/views.py`, `core/models.py`,
`core/forms.py`) as executable Lean definitions, and proves/refutes the
frozen specification claims about it.

Conventions of the embedding:
* Database rows become records; the store becomes a `DB` record of row lists.
* Django querysets become list filters; `__iexact` matching becomes
  comparison of `pyUpper` images (register numbers are ASCII).
* Python `str.strip()` / `str.upper()` / `str.lower()` become `pyStrip` /
  `pyUpper` / `pyLower` (ASCII, which covers the data the app handles).
* Django's one-way password hasher `make_password` is modelled as an
  injective tagging function; the claims only need that the stored value
  is the hash of a given plaintext.
* `transaction.atomic` blocks become explicit: a body that fails returns
  the state as it was when the block was entered.
* Auto timestamps (`added_at`, `registered_at`, `created_at`) are omitted;
  `joined_at` is kept because claims mention it.  "now" is an explicit
  `Nat` parameter.
-/

/-! ## Python string primitives -/

/-- Python `str.upper()` restricted to ASCII (the app's register numbers,
team names and department codes are ASCII). -/
def pyUpper (s : String) : String := ⟨s.data.map Char.toUpper⟩

/-- Python `str.lower()` restricted to ASCII. -/
def pyLower (s : String) : String := ⟨s.data.map Char.toLower⟩

/-- Python `str.strip()`: remove leading and trailing whitespace. -/
def pyStrip (s : String) : String :=
  ⟨((s.data.dropWhile Char.isWhitespace).reverse.dropWhile Char.isWhitespace).reverse⟩

/-- Python `sub in s` substring containment (ASCII). -/
def pyContains (s sub : String) : Bool :=
  (List.range (s.data.length + 1)).any (fun i => sub.data.isPrefixOf (s.data.drop i))

/-- Django `register_number__iexact` matching: case-insensitive equality. -/
def iexact (a b : String) : Bool := pyUpper a == pyUpper b

/-- Django's `make_password`, modelled as an injective tag.  The engine only
relies on the hash being derived from (and distinct from) the plaintext. -/
def make_password (plain : String) : String := "pbkdf2_sha256$" ++ plain

theorem char_toUpper_not_lower (c : Char) : ¬(97 ≤ (Char.toUpper c).toNat ∧ (Char.toUpper c).toNat ≤ 122) := by
  unfold Char.toUpper
  by_cases h : 97 ≤ c.toNat ∧ c.toNat ≤ 122
  · rw [if_pos h]
    have hv : (c.toNat - 32).isValidChar := Or.inl (by omega)
    rw [Char.ofNat, dif_pos hv]
    show ¬(97 ≤ (Char.ofNatAux (c.toNat - 32) hv).toNat ∧ _)
    have : (Char.ofNatAux (c.toNat - 32) hv).toNat = c.toNat - 32 := by
      simp [Char.ofNatAux, Char.toNat, UInt32.toNat]
    rw [this]
    omega
  · rw [if_neg h]
    exact h

theorem char_toUpper_idem (c : Char) : Char.toUpper (Char.toUpper c) = Char.toUpper c := by
  conv_lhs => rw [Char.toUpper]
  rw [if_neg (char_toUpper_not_lower c)]

theorem pyUpper_idem (s : String) : pyUpper (pyUpper s) = pyUpper s := by
  simp [pyUpper, List.map_map, Function.comp_def, char_toUpper_idem]

/-- Every character of an uppercased string is a `toUpper` fixed point. -/
theorem mem_pyUpper_fixed {c : Char} {s : String} (h : c ∈ (pyUpper s).data) :
    Char.toUpper c = c := by
  simp only [pyUpper, List.mem_map] at h
  obtain ⟨a, _, rfl⟩ := h
  exact char_toUpper_idem a

theorem pyUpper_pyStrip_pyUpper (s : String) :
    pyUpper (pyStrip (pyUpper s)) = pyStrip (pyUpper s) := by
  have hsub : ∀ c ∈ (pyStrip (pyUpper s)).data, Char.toUpper c = c := by
    intro c hc
    apply mem_pyUpper_fixed (s := s)
    simp only [pyStrip] at hc
    have h1 : c ∈ ((pyUpper s).data.dropWhile Char.isWhitespace).reverse.dropWhile Char.isWhitespace := by
      simpa using hc
    have h2 := (List.dropWhile_sublist (p := Char.isWhitespace)
      (l := ((pyUpper s).data.dropWhile Char.isWhitespace).reverse)).subset h1
    have h3 : c ∈ (pyUpper s).data.dropWhile Char.isWhitespace := by
      simpa using h2
    exact (List.dropWhile_sublist (p := Char.isWhitespace) (l := (pyUpper s).data)).subset h3
  show (⟨(pyStrip (pyUpper s)).data.map Char.toUpper⟩ : String) = pyStrip (pyUpper s)
  have : (pyStrip (pyUpper s)).data.map Char.toUpper = (pyStrip (pyUpper s)).data := by
    rw [List.map_congr_left (g := fun a => a) hsub, List.map_id']
  rw [this]

/-! ## Data model (`core/models.py`) -/

/-- `Event.event_type` choices. -/
inductive EventType
  | technical
  | nonTechnical
deriving DecidableEq, Repr

/-- `core.models.Event` (the fields the rule engine reads). -/
structure Event where
  id : Nat
  name : String
  event_type : EventType
  is_team_event : Bool
  min_team_size : Nat
  max_team_size : Nat
deriving DecidableEq, Repr

/-- `core.models.Registration`.  `team` holds the referenced `Team` pk
(`SET_NULL` foreign key); `event` holds the joined `Event` row
(`select_related('event')` in the queries). -/
structure Registration where
  id : Nat
  register_number : String
  full_name : String
  email : String
  phone_number : String
  year : String
  department : String
  is_verified : Bool
  event : Event
  team : Option Nat
  team_name : Option String
  team_members : Nat
  team_password : Option String
  is_team_lead : Bool
deriving DecidableEq, Repr

/-- `core.models.Team`.  `created_by` holds the founding `Registration` pk
(nullable foreign key). -/
structure Team where
  id : Nat
  name : String
  event : Event
  created_by : Option Nat
  password : Option String
  description : String
deriving DecidableEq, Repr

/-- `TeamMember.status` choices. -/
inductive MemberStatus
  | pending
  | joined
  | declined
deriving DecidableEq, Repr

/-- `core.models.TeamMember`.  The flows always attach a registration, so
`registration_id` is total here. -/
structure TeamMember where
  id : Nat
  team_id : Nat
  registration_id : Nat
  status : MemberStatus
  joined_at : Option Nat
deriving DecidableEq, Repr

/-- The relational store: one list per table, plus the auth-user usernames
(`django.contrib.auth.models.User`) and the autoincrement counters. -/
structure DB where
  registrations : List Registration
  teams : List Team
  team_members : List TeamMember
  users : List String
  next_registration_id : Nat
  next_team_id : Nat
  next_team_member_id : Nat
deriving DecidableEq, Repr

/-- `Team.total_count`: all members regardless of status. -/
def Team.total_count (t : Team) (db : DB) : Nat :=
  (db.team_members.filter (fun m => m.team_id == t.id)).length

/-- `Team.member_count`: members with status joined. -/
def Team.member_count (t : Team) (db : DB) : Nat :=
  (db.team_members.filter (fun m => m.team_id == t.id && m.status == MemberStatus.joined)).length

/-- `Team.pending_count`: members with status pending. -/
def Team.pending_count (t : Team) (db : DB) : Nat :=
  (db.team_members.filter (fun m => m.team_id == t.id && m.status == MemberStatus.pending)).length

/-! ## `validate_event_registration_limit` (`core/views.py` lines 29-88) -/

/-- The two failure messages of `validate_event_registration_limit`,
distinguished by content. -/
inductive LimitError
  | alreadyRegisteredSameType
  | leadConflict
deriving DecidableEq, Repr

/-- Python truthiness of the optional `exclude_registration_id`
(`if exclude_registration_id:` — `None` and `0` are both falsy). -/
def optTruthy : Option Nat → Bool
  | none => false
  | some n => n != 0

/-- The `query` local of `validate_event_registration_limit`: all
registrations of the register number (`__iexact`), minus the optionally
excluded row (`if exclude_registration_id:` is Python truthiness). -/
def validate_query (regs : List Registration) (register_number : String)
    (exclude_registration_id : Option Nat) : List Registration :=
  let query := regs.filter (fun r => iexact r.register_number register_number)
  if optTruthy exclude_registration_id then
    query.filter (fun r => (some r.id != exclude_registration_id))
  else query

/-- `validate_event_registration_limit(register_number, new_event,
exclude_registration_id)`: each register number may hold at most one
technical and one non-technical registration; `none` means valid. -/
def validate_event_registration_limit (regs : List Registration) (register_number : String)
    (new_event : Option Event) (exclude_registration_id : Option Nat) : Option LimitError :=
  let query := validate_query regs register_number exclude_registration_id
  let technical_registrations := query.filter (fun r => r.event.event_type == EventType.technical)
  let non_technical_registrations := query.filter (fun r => r.event.event_type == EventType.nonTechnical)
  let technical_count := technical_registrations.length
  let non_technical_count := non_technical_registrations.length
  let is_team_lead_technical := technical_registrations.any (fun r => r.is_team_lead)
  let is_team_lead_non_technical := non_technical_registrations.any (fun r => r.is_team_lead)
  match new_event with
  | none => none
  | some e =>
    match e.event_type with
    | EventType.technical =>
      if technical_count ≥ 1 then some LimitError.alreadyRegisteredSameType
      else if is_team_lead_technical then some LimitError.leadConflict
      else none
    | EventType.nonTechnical =>
      if non_technical_count ≥ 1 then some LimitError.alreadyRegisteredSameType
      else if is_team_lead_non_technical then some LimitError.leadConflict
      else none

/-! ## Raw team-member payload (`register` inner helpers, `core/views.py`) -/

/-- One loosely-typed JSON value read from a payload `dict` via
`.get(key, '')`: either a string, or any non-string JSON value (number,
null, boolean, list, object).  Calling `.strip()` on a non-string raises
`AttributeError`; all non-strings behave alike there, so they share one
constructor. -/
inductive RawValue
  | str (s : String)
  | nonString
deriving DecidableEq, Repr

/-- Does `.strip()` succeed on the value (i.e. is it a string)? -/
def RawValue.isStr : RawValue → Bool
  | RawValue.str _ => true
  | RawValue.nonString => false

/-- One loosely-typed member record as parsed from the hidden JSON field:
the `dict` case of the payload, with the keys `process_team_members`
reads via `.get(key, '')`.  The five fields extracted with `.strip()`
(source lines 285-288) keep the raw JSON typing, because a non-string
value makes that `.strip()` raise.  `year` and `department` are only
ever read through `map_year`/`map_department`, which apply `str()`
before `.strip()`, so there any JSON value behaves exactly like its
string rendering and the fields stay `String`. -/
structure RawMember where
  register_number : RawValue
  full_name : RawValue
  email : RawValue
  phone : RawValue
  phone_number : RawValue
  year : String
  department : String
deriving DecidableEq, Repr

/-- One element of the parsed payload list; `invalid` is the
non-`dict` case (`isinstance(member_data, dict)` fails). -/
inductive RawEntry
  | invalid
  | entry (m : RawMember)
deriving DecidableEq, Repr

/-- Entries on which the field extraction of source lines 285-288 cannot
raise: non-`dict` entries (rejected by the `isinstance` check before any
`.strip()` runs) and `dict` entries whose five extracted values are all
strings. -/
def RawEntry.safe : RawEntry → Bool
  | RawEntry.invalid => true
  | RawEntry.entry m =>
      m.register_number.isStr && m.full_name.isStr && m.email.isStr
        && m.phone.isStr && m.phone_number.isStr

/-- `map_year` (`core/views.py`): map a free-form year string to a choice. -/
def map_year (year_str : String) : String :=
  let y := pyLower (pyStrip year_str)
  if pyContains y "2nd" || y == "2" then "2"
  else if pyContains y "3rd" || y == "3" then "3"
  else if pyContains y "4th" || y == "4" then "4"
  else "1"

/-- `map_department` (`core/views.py`): map a free-form department string
to a choice. -/
def map_department (dept_str : String) : String :=
  let d := pyUpper (pyStrip dept_str)
  if pyContains d "CSE" then "CSE"
  else if pyContains d "ECE" then "ECE"
  else if pyContains d "MECH" then "MECH"
  else if pyContains d "CIVIL" then "CIVIL"
  else if pyContains d "AIDS" || pyContains d "AI" then "AIDS"
  else "AIDS"

/-- The reasons `process_team_members` records in `skipped_members`
(message strings in the source, encoded as constructors). -/
inductive SkipReason
  | invalidFormat (idx : Nat)
  | emptyRegisterNumber (idx : Nat)
  | duplicateOfLead (idx : Nat)
  | limitFailed (register_number : String) (e : LimitError)
  | alreadyInOtherTeam (register_number : String) (team_id : Nat)
  | processingError (register_number : String)
deriving DecidableEq, Repr

/-- The three outcome lists `process_team_members` returns:
`added_members` (reg-no and name), `already_in_team`, `skipped_members`. -/
structure MemberOutcome where
  added : List (String × String)
  already_in_team : List String
  skipped : List SkipReason
deriving DecidableEq, Repr

/-- The condition of `core/views.py` line 319:
`existing_member_reg.team and existing_member_reg.team != team`
(Python truthiness: a `None` team is falsy; `!=` compares pks). -/
def in_other_team (r : Registration) (team : Team) : Bool :=
  match r.team with
  | some tid => tid != team.id
  | none => false

/-- Shared tail of the per-member loop (source lines 347-369): the
`TeamMember`-exists check, the pending insert, and the conditional
re-stamp of `Registration.team`/`team_name`. -/
def register_member_tail (team : Team) (team_name_input : String) (member_reg : String)
    (existing : Registration) (db : DB) (acc : MemberOutcome) : DB × MemberOutcome :=
  if db.team_members.any (fun tm => tm.team_id == team.id && tm.registration_id == existing.id) then
    (db, { acc with already_in_team := acc.already_in_team ++ [member_reg] })
  else
    let tm : TeamMember := { id := db.next_team_member_id, team_id := team.id,
                             registration_id := existing.id, status := MemberStatus.pending,
                             joined_at := none }
    let db1 := { db with
      team_members := db.team_members ++ [tm],
      next_team_member_id := db.next_team_member_id + 1 }
    let db2 := if existing.team == some team.id then db1
      else { db1 with registrations := db1.registrations.map (fun r =>
               if r.id == existing.id then
                 { r with team := some team.id, team_name := some team_name_input } else r) }
    (db2, { acc with added := acc.added ++ [(member_reg, existing.full_name)] })

/-- The field extraction of source lines 285-288, which runs BEFORE the
per-entry `try` at line 301: each `.get(key, '').strip()` raises
`AttributeError` on a non-string value (`none` here).  Python's `or`
between the `phone` and `phone_number` expressions short-circuits, so
`phone_number` is only touched — and can only raise — when `phone`
strips to the empty string.  On success, the tuple holds the uppercased
stripped register number and the stripped name, e-mail and phone. -/
def extract_member_fields (m : RawMember) : Option (String × String × String × String) :=
  match m.register_number, m.full_name, m.email, m.phone with
  | RawValue.str rn, RawValue.str fn, RawValue.str em, RawValue.str ph =>
    if pyStrip ph != "" then
      some (pyUpper (pyStrip rn), pyStrip fn, pyStrip em, pyStrip ph)
    else
      match m.phone_number with
      | RawValue.str pn => some (pyUpper (pyStrip rn), pyStrip fn, pyStrip em, pyStrip pn)
      | RawValue.nonString => none
  | _, _, _, _ => none

/-- Body of one `process_team_members` iteration once the field
extraction has succeeded (source lines 293-369).  The two leading string
tests cannot raise, and every fallible step after them sits inside the
per-entry `try`/`except` that appends to `skipped_members`, so the body
is a total function producing exactly one outcome. -/
def process_entry_body (team : Team) (selected_event : Event) (registration : Registration)
    (team_name_input hashed_password : String) (idx : Nat)
    (member_reg member_name member_email member_phone year department : String)
    (db : DB) (acc : MemberOutcome) : DB × MemberOutcome :=
  if member_reg == "" then
    (db, { acc with skipped := acc.skipped ++ [SkipReason.emptyRegisterNumber idx] })
  else if member_reg == pyUpper registration.register_number then
    (db, { acc with skipped := acc.skipped ++ [SkipReason.duplicateOfLead idx] })
  else
    match validate_event_registration_limit db.registrations member_reg (some selected_event) none with
    | some err =>
        (db, { acc with skipped := acc.skipped ++ [SkipReason.limitFailed member_reg err] })
    | none =>
      -- Registration.objects.get(register_number__iexact=member_reg, event=selected_event)
      match db.registrations.filter (fun r =>
          iexact r.register_number member_reg && r.event == selected_event) with
      | _ :: _ :: _ =>
          -- MultipleObjectsReturned, caught by the per-entry handler
          (db, { acc with skipped := acc.skipped ++ [SkipReason.processingError member_reg] })
      | [existing] =>
          if in_other_team existing team then
            (db, { acc with skipped := acc.skipped ++
              [SkipReason.alreadyInOtherTeam member_reg (existing.team.getD 0)] })
          else
            register_member_tail team team_name_input member_reg existing db acc
      | [] =>
          -- Registration.DoesNotExist: create a fresh registration for the member
          let new_reg : Registration := {
            id := db.next_registration_id,
            register_number := member_reg,
            full_name := if member_name != "" then member_name else "Team Member " ++ toString idx,
            email := if member_email != "" then member_email else member_reg ++ "@example.com",
            phone_number := if member_phone != "" then member_phone else "0000000000",
            year := map_year year,
            department := map_department department,
            is_verified := false,
            event := selected_event,
            team := some team.id,
            team_name := some team_name_input,
            team_members := 0,
            team_password := some hashed_password,
            is_team_lead := false }
          let db1 := { db with
            registrations := db.registrations ++ [new_reg],
            next_registration_id := db.next_registration_id + 1 }
          register_member_tail team team_name_input member_reg new_reg db1 acc

/-- One iteration of the `process_team_members` loop (source lines
279-375).  `none` is an `AttributeError` escaping the loop: the field
extraction of lines 285-288 runs before the per-entry `try` at line 301,
so a non-string value in a `dict` entry is NOT caught by the per-entry
handler and aborts the whole call. -/
def process_one_member (team : Team) (selected_event : Event) (registration : Registration)
    (team_name_input hashed_password : String) (idx : Nat) (e : RawEntry)
    (db : DB) (acc : MemberOutcome) : Option (DB × MemberOutcome) :=
  match e with
  | RawEntry.invalid =>
      some (db, { acc with skipped := acc.skipped ++ [SkipReason.invalidFormat idx] })
  | RawEntry.entry m =>
    match extract_member_fields m with
    | none => none
    | some (member_reg, member_name, member_email, member_phone) =>
        some (process_entry_body team selected_event registration team_name_input
          hashed_password idx member_reg member_name member_email member_phone
          m.year m.department db acc)

/-- The loop of `process_team_members`, threading the store and the
outcome accumulator; `idx` is the 1-based enumeration index.  An
uncaught `AttributeError` (`none`) propagates, discarding the iterations
already performed — the caller's transaction later rolls them back. -/
def process_members_go (team : Team) (selected_event : Event) (registration : Registration)
    (team_name_input hashed_password : String) :
    Nat → List RawEntry → DB → MemberOutcome → Option (DB × MemberOutcome)
  | _, [], db, acc => some (db, acc)
  | idx, e :: rest, db, acc =>
      match process_one_member team selected_event registration team_name_input hashed_password idx e db acc with
      | none => none
      | some r =>
          process_members_go team selected_event registration team_name_input hashed_password
            (idx + 1) rest r.1 r.2

/-- `process_team_members(team, selected_event, team_members_data,
registration, team_name_input, hashed_password)` (source lines 266-377);
`none` is an `AttributeError` escaping the function. -/
def process_team_members (team : Team) (selected_event : Event)
    (team_members_data : List RawEntry) (registration : Registration)
    (team_name_input hashed_password : String) (db : DB) : Option (DB × MemberOutcome) :=
  process_members_go team selected_event registration team_name_input hashed_password
    1 team_members_data db ⟨[], [], []⟩

/-! ## `register` submission flow (`core/views.py` lines 152-571,
`RegistrationForm` in `core/forms.py`) -/

/-- The cleaned form data a valid `RegistrationForm` hands to the view.
`password` is `none` when the optional field was left empty;
`team_members_data` is the payload parsed by `parse_team_members`
(a parse failure yields `[]`, never an error). -/
structure RegForm where
  register_number : String
  full_name : String
  email : String
  phone_number : String
  year : String
  department : String
  event : Event
  team_name : String
  password : Option String
  team_members_data : List RawEntry
deriving DecidableEq, Repr

/-- Outcome of one `register` POST. -/
inductive RegisterResult
  | formInvalid
  | duplicateForEvent
  | userCreateFailed
  | limitError (e : LimitError)
  | integrityError
  | uncaughtFault
  | success (team_info : Option (Nat × String))
deriving DecidableEq, Repr

/-- Is the submission outcome a failure (no registration produced)? -/
def RegisterResult.isFailure : RegisterResult → Bool
  | RegisterResult.success _ => false
  | _ => true

/-- `create_or_get_user(username, email, password)` (source lines 239-264).
Runs BEFORE the `transaction.atomic()` block of `register`.  With a
password it attempts `create_user` (unique exact username; an
`IntegrityError` falls back to an `iexact` lookup); without one it only
looks the user up.  Returns the updated store and the success flag. -/
def create_or_get_user (db : DB) (username : String) (password : Option String) : DB × Bool :=
  match password with
  | some _ =>
    if db.users.any (fun u => u == username) then
      -- IntegrityError: user already exists, fall back to iexact lookup
      match db.users.filter (fun u => iexact u username) with
      | [] => (db, false)
      | [_] => (db, true)
      | _ :: _ :: _ => (db, false)
    else ({ db with users := db.users ++ [username] }, true)
  | none =>
    -- User.objects.get(username__iexact=username); absence or multiplicity
    -- raises and the except-clauses return None
    match db.users.filter (fun u => iexact u username) with
    | [] => (db, false)
    | [_] => (db, true)
    | _ :: _ :: _ => (db, false)

/-- The `register` POST flow from a valid form onward (source lines
402-552).  The duplicate check and `create_or_get_user` run before
`transaction.atomic()`; an exception escaping the block — the
`IntegrityError` of a duplicate team name, or the `AttributeError` of a
non-string member-payload value — rolls the block's writes back and the
handlers at lines 544/550 report failure.  The only form
validation modelled is the one the team path relies on: a team-creating
submission must carry a password (`forms.py` line 201-202). -/
def register_submit (db : DB) (form : RegForm) : DB × RegisterResult :=
  let register_number := pyStrip (pyUpper (pyStrip form.register_number))
  let selected_event := form.event
  let team_name_input := pyStrip form.team_name
  if selected_event.is_team_event && team_name_input != "" && form.password == none then
    (db, RegisterResult.formInvalid)
  else if db.registrations.any (fun r =>
      iexact r.register_number register_number && r.event == selected_event) then
    (db, RegisterResult.duplicateForEvent)
  else
    let ug := create_or_get_user db register_number form.password
    let db1 := ug.1
    if !ug.2 then (db1, RegisterResult.userCreateFailed)
    else
      -- transaction.atomic() begins here; rollback target is db1
      match validate_event_registration_limit db1.registrations register_number
          (some selected_event) none with
      | some e => (db1, RegisterResult.limitError e)
      | none =>
        -- registration = form.save(commit=False); form.save uppercases
        let registration : Registration := {
          id := db1.next_registration_id,
          register_number := register_number,
          full_name := form.full_name,
          email := form.email,
          phone_number := form.phone_number,
          year := form.year,
          department := form.department,
          is_verified := false,
          event := selected_event,
          team := none,
          team_name := if team_name_input != "" then some team_name_input else none,
          team_members := 0,
          team_password := none,
          is_team_lead := false }
        let db2 := { db1 with
          registrations := db1.registrations ++ [registration],
          next_registration_id := db1.next_registration_id + 1 }
        if selected_event.is_team_event && team_name_input != "" then
          if db2.teams.any (fun t => t.name == team_name_input && t.event == selected_event) then
            -- Team.objects.create raises IntegrityError (unique (name, event));
            -- caught at line 544: the atomic block rolls back to db1
            (db1, RegisterResult.integrityError)
          else
            let team_password := form.password.getD ""
            let hashed_password := make_password team_password
            let team : Team := {
              id := db2.next_team_id,
              name := team_name_input,
              event := selected_event,
              created_by := some registration.id,
              password := some hashed_password,
              description := "" }
            let db3 := { db2 with
              teams := db2.teams ++ [team],
              next_team_id := db2.next_team_id + 1 }
            let lead_tm : TeamMember := {
              id := db3.next_team_member_id,
              team_id := team.id,
              registration_id := registration.id,
              status := MemberStatus.joined,
              joined_at := none }
            let db4 := { db3 with
              team_members := db3.team_members ++ [lead_tm],
              next_team_member_id := db3.next_team_member_id + 1 }
            let registration1 := { registration with
              team := some team.id,
              team_password := some hashed_password,
              is_team_lead := true }
            let db5 := { db4 with
              registrations := db4.registrations.map (fun r =>
                if r.id == registration.id then registration1 else r) }
            match process_team_members team selected_event form.team_members_data
                registration1 team_name_input hashed_password db5 with
            | none =>
                -- AttributeError from the member-field extraction escapes the
                -- atomic block: its writes roll back to db1 and the generic
                -- `except Exception` handler at line 550 reports failure
                (db1, RegisterResult.uncaughtFault)
            | some pr =>
                let db6 := pr.1
                let total_members := (db6.team_members.filter (fun tm => tm.team_id == team.id)).length
                let registration2 := { registration1 with team_members := total_members }
                let db7 := { db6 with
                  registrations := db6.registrations.map (fun r =>
                    if r.id == registration.id then registration2 else r) }
                (db7, RegisterResult.success (some (team.id, team_password)))
        else
          (db2, RegisterResult.success none)

/-! ## `create_team` view (`core/views.py` lines 2011-2111) -/

/-- Outcome of one `create_team` POST. -/
inductive CreateTeamResult
  | missingTeamName
  | teamNameTaken
  | limitError (e : LimitError)
  | attributeFault
  | created (team_id : Nat) (plain_password : String)
deriving DecidableEq, Repr

/-- `create_team(event)` POST body.  `registration` is `None` for
admin/staff users (source lines 2022-2024); `random_password` stands for
`get_random_string(6)`, an input independent of any user credential. -/
def create_team (db : DB) (event : Event) (registration : Option Registration)
    (team_name_raw description random_password : String) : DB × CreateTeamResult :=
  let team_name := pyStrip team_name_raw
  if team_name == "" then (db, CreateTeamResult.missingTeamName)
  else if db.teams.any (fun t => t.name == team_name && t.event == event) then
    (db, CreateTeamResult.teamNameTaken)
  else
    match registration with
    | none =>
      -- admin path: `if registration:` skips validation, the team row is
      -- written, then `registration.team = team` raises on None and the
      -- atomic block rolls everything back
      (db, CreateTeamResult.attributeFault)
    | some registration =>
      match validate_event_registration_limit db.registrations registration.register_number
          (some event) none with
      | some e => (db, CreateTeamResult.limitError e)
      | none =>
        let hashed_password := make_password random_password
        let team : Team := {
          id := db.next_team_id,
          name := team_name,
          event := event,
          created_by := some registration.id,
          password := some hashed_password,
          description := description }
        let tm : TeamMember := {
          id := db.next_team_member_id,
          team_id := team.id,
          registration_id := registration.id,
          status := MemberStatus.joined,
          joined_at := none }
        let registration1 := { registration with
          team := some team.id,
          team_name := some team_name,
          team_password := some hashed_password,
          is_team_lead := true }
        let db1 := { db with
          teams := db.teams ++ [team],
          team_members := db.team_members ++ [tm],
          registrations := db.registrations.map (fun r =>
            if r.id == registration.id then registration1 else r),
          next_team_id := db.next_team_id + 1,
          next_team_member_id := db.next_team_member_id + 1 }
        (db1, CreateTeamResult.created team.id random_password)

/-! ## `team_add_members` view (`core/views.py` lines 2134-2285) -/

/-- The POST fields of the `add_member` action. -/
structure AddMemberForm where
  full_name : String
  register_number : String
  email : String
  phone_number : String
  department : String
  year : String
deriving DecidableEq, Repr

/-- Outcome of one `add_member` action. -/
inductive AddMemberResult
  | fieldsRequired
  | teamFull
  | limitError (e : LimitError)
  | alreadyInTeamWarning (full_name : String)
  | capacityExceeded
  | addedPending (registration_id : Nat)
  | alreadyInTeamInfo (full_name : String)
deriving DecidableEq, Repr

/-- `team_add_members` `action == 'add_member'` (source lines 2162-2241).
Note the capacity is checked before eligibility (line 2174) and
double-checked right before the insert (line 2195). -/
def team_add_members_add (db : DB) (team : Team) (f : AddMemberForm) : DB × AddMemberResult :=
  let full_name := pyStrip f.full_name
  let register_number := pyUpper (pyStrip f.register_number)
  let email := pyStrip f.email
  let phone_number := pyStrip f.phone_number
  let department := pyStrip f.department
  let year := pyStrip f.year
  if full_name == "" || register_number == "" || email == "" || phone_number == "" ||
      department == "" || year == "" then
    (db, AddMemberResult.fieldsRequired)
  else if team.event.max_team_size ≤ team.total_count db then
    (db, AddMemberResult.teamFull)
  else
    match validate_event_registration_limit db.registrations register_number
        (some team.event) none with
    | some e => (db, AddMemberResult.limitError e)
    | none =>
      -- existing_member: exact-match .filter(...).first()
      let existing_member := db.registrations.find? (fun r =>
        r.register_number == register_number && r.event == team.event)
      let already := match existing_member with
        | some em => db.team_members.any (fun tm =>
            tm.team_id == team.id && tm.registration_id == em.id)
        | none => false
      if already then
        (db, AddMemberResult.alreadyInTeamWarning
          ((existing_member.map Registration.full_name).getD ""))
      else if team.event.max_team_size ≤ team.total_count db then
        (db, AddMemberResult.capacityExceeded)
      else
        -- Registration.objects.get_or_create(register_number=..., event=..., defaults=...)
        let goc : DB × Registration :=
          match db.registrations.find? (fun r =>
              r.register_number == register_number && r.event == team.event) with
          | some r =>
            let r1 := { r with
              full_name := full_name,
              email := email,
              phone_number := phone_number,
              department := department,
              year := year,
              team := some team.id,
              team_name := some team.name,
              team_password := team.password }
            ({ db with registrations := db.registrations.map (fun x =>
                if x.id == r.id then r1 else x) }, r1)
          | none =>
            let r1 : Registration := {
              id := db.next_registration_id,
              register_number := register_number,
              full_name := full_name,
              email := email,
              phone_number := phone_number,
              year := year,
              department := department,
              is_verified := false,
              event := team.event,
              team := some team.id,
              team_name := some team.name,
              team_members := 0,
              team_password := team.password,
              is_team_lead := false }
            ({ db with
              registrations := db.registrations ++ [r1],
              next_registration_id := db.next_registration_id + 1 }, r1)
        let db1 := goc.1
        let reg := goc.2
        -- TeamMember.objects.get_or_create(team=..., registration=..., defaults pending)
        if db1.team_members.any (fun tm =>
            tm.team_id == team.id && tm.registration_id == reg.id) then
          (db1, AddMemberResult.alreadyInTeamInfo full_name)
        else
          let tm : TeamMember := {
            id := db1.next_team_member_id,
            team_id := team.id,
            registration_id := reg.id,
            status := MemberStatus.pending,
            joined_at := none }
          ({ db1 with
            team_members := db1.team_members ++ [tm],
            next_team_member_id := db1.next_team_member_id + 1 },
           AddMemberResult.addedPending reg.id)

/-- Outcome of a member-removal action. -/
inductive RemoveResult
  | memberNotFound
  | cannotRemoveLead
  | removed (full_name : String)
deriving DecidableEq, Repr

/-- `team_add_members` `action == 'remove_member'` (source lines
2243-2254): refuses to delete the founder's row
(`team_member.registration == team.created_by`, a pk comparison). -/
def team_add_members_remove (db : DB) (team : Team) (member_id : Nat) : DB × RemoveResult :=
  match db.team_members.find? (fun tm => tm.id == member_id && tm.team_id == team.id) with
  | none => (db, RemoveResult.memberNotFound)
  | some team_member =>
    if team.created_by == some team_member.registration_id then
      (db, RemoveResult.cannotRemoveLead)
    else
      let member_name := ((db.registrations.find? (fun r =>
        r.id == team_member.registration_id)).map Registration.full_name).getD ""
      ({ db with team_members := db.team_members.filter (fun x => x.id != team_member.id) },
       RemoveResult.removed member_name)

/-- The standalone `remove_team_member` view (source lines 2458-2489):
`get_object_or_404(TeamMember, id=member_id, team=team)`, then a POST
deletes the row — with no founder check of any kind. -/
def remove_team_member (db : DB) (team : Team) (member_id : Nat) : DB × RemoveResult :=
  match db.team_members.find? (fun tm => tm.id == member_id && tm.team_id == team.id) with
  | none => (db, RemoveResult.memberNotFound)
  | some team_member =>
    let member_name := ((db.registrations.find? (fun r =>
      r.id == team_member.registration_id)).map Registration.full_name).getD ""
    ({ db with team_members := db.team_members.filter (fun x => x.id != team_member.id) },
     RemoveResult.removed member_name)

/-- `team_add_members` `action == 'finalize'` (source lines 2256-2264):
a pure validation gate. -/
inductive FinalizeResult
  | belowMinimum
  | aboveMaximum
  | finalized
deriving DecidableEq, Repr

/-- The finalize gate of `team_add_members`. -/
def team_finalize (db : DB) (team : Team) : FinalizeResult :=
  if team.member_count db < team.event.min_team_size then FinalizeResult.belowMinimum
  else if team.event.max_team_size < team.total_count db then FinalizeResult.aboveMaximum
  else FinalizeResult.finalized

/-! ## Invitation transitions (`core/views.py` lines 2492-2555) -/

/-- Outcomes of `accept_team_invite` / `decline_team_invite`. -/
inductive InviteResult
  | noInvitation
  | alreadyJoinedInfo
  | declinedHardFailure
  | joinedSuccess
  | notPendingFailure
  | declinedSuccess
deriving DecidableEq, Repr

/-- `accept_team_invite` acting on the located `TeamMember` row (the view
finds the row through the session user's registrations; that lookup is
HTTP plumbing outside this core, so the row is addressed by pk here). -/
def accept_team_invite (db : DB) (tm_id : Nat) (now : Nat) : DB × InviteResult :=
  match db.team_members.find? (fun tm => tm.id == tm_id) with
  | none => (db, InviteResult.noInvitation)
  | some team_member =>
    match team_member.status with
    | MemberStatus.joined => (db, InviteResult.alreadyJoinedInfo)
    | MemberStatus.declined => (db, InviteResult.declinedHardFailure)
    | MemberStatus.pending =>
      let tm1 := { team_member with status := MemberStatus.joined, joined_at := some now }
      ({ db with team_members := db.team_members.map (fun x =>
          if x.id == team_member.id then tm1 else x) },
       InviteResult.joinedSuccess)

/-- `decline_team_invite` acting on the located `TeamMember` row. -/
def decline_team_invite (db : DB) (tm_id : Nat) : DB × InviteResult :=
  match db.team_members.find? (fun tm => tm.id == tm_id) with
  | none => (db, InviteResult.noInvitation)
  | some team_member =>
    if team_member.status != MemberStatus.pending then
      (db, InviteResult.notPendingFailure)
    else
      let tm1 := { team_member with status := MemberStatus.declined }
      ({ db with team_members := db.team_members.map (fun x =>
          if x.id == team_member.id then tm1 else x) },
       InviteResult.declinedSuccess)

/-! ## `edit_team_member` (`core/views.py` lines 2362-2455) and
`edit_registration` (lines 1755-1799) -/

/-- Outcome of one `edit_team_member` POST. -/
inductive EditMemberResult
  | memberNotFound
  | fieldsRequired
  | duplicateRegisterNumber
  | limitError (e : LimitError)
  | updated
deriving DecidableEq, Repr

/-- `edit_team_member(team, member)`: edit the member's registration,
re-checking uniqueness and eligibility when the register number changes;
`new_status` is `none` when the posted status string is not one of the
three choices. -/
def edit_team_member (db : DB) (team : Team) (member_id : Nat) (f : AddMemberForm)
    (new_status : Option MemberStatus) : DB × EditMemberResult :=
  match db.team_members.find? (fun tm => tm.id == member_id && tm.team_id == team.id) with
  | none => (db, EditMemberResult.memberNotFound)
  | some team_member =>
    let register_number := pyUpper (pyStrip f.register_number)
    let full_name := pyStrip f.full_name
    let email := pyStrip f.email
    let phone_number := pyStrip f.phone_number
    let department := pyStrip f.department
    let year := pyStrip f.year
    if !(register_number != "" && full_name != "" && email != "" && phone_number != "" &&
        department != "" && year != "") then
      (db, EditMemberResult.fieldsRequired)
    else
      match db.registrations.find? (fun r => r.id == team_member.registration_id) with
      | none => (db, EditMemberResult.memberNotFound)
      | some registration =>
        let commit : DB × EditMemberResult :=
          let registration1 := { registration with
            register_number := register_number,
            full_name := full_name,
            email := email,
            phone_number := phone_number,
            department := department,
            year := year }
          let dbA := { db with registrations := db.registrations.map (fun r =>
            if r.id == registration.id then registration1 else r) }
          let dbB := match new_status with
            | some st => { dbA with team_members := dbA.team_members.map (fun x =>
                if x.id == team_member.id then { x with status := st } else x) }
            | none => dbA
          (dbB, EditMemberResult.updated)
        if register_number != registration.register_number then
          if db.registrations.any (fun r =>
              r.register_number == register_number && r.event == team.event &&
              r.id != registration.id) then
            (db, EditMemberResult.duplicateRegisterNumber)
          else
            match validate_event_registration_limit db.registrations register_number
                (some team.event) (some registration.id) with
            | some e => (db, EditMemberResult.limitError e)
            | none => commit
        else commit

/-- The POST fields of the admin `edit_registration` view. -/
structure EditRegistrationForm where
  full_name : String
  email : String
  phone_number : String
  register_number : String
  year : String
  department : String
  event : Option Event
  team_name : String
  team_members : Nat
  is_team_lead : Bool
  is_verified : Bool
deriving DecidableEq, Repr

/-- `edit_registration(registration_id)` POST (source lines 1764-1791).
The register number is only stripped, NOT uppercased — unlike every
other mutation path. -/
def edit_registration (db : DB) (registration_id : Nat) (f : EditRegistrationForm) :
    DB × Bool :=
  match db.registrations.find? (fun r => r.id == registration_id) with
  | none => (db, false)
  | some registration =>
    let registration1 := { registration with
      full_name := pyStrip f.full_name,
      email := pyStrip f.email,
      phone_number := pyStrip f.phone_number,
      register_number := pyStrip f.register_number,
      year := f.year,
      department := f.department,
      event := f.event.getD registration.event,
      team_name := some (pyStrip f.team_name),
      team_members := f.team_members,
      is_team_lead := f.is_team_lead,
      is_verified := f.is_verified }
    ({ db with registrations := db.registrations.map (fun r =>
        if r.id == registration.id then registration1 else r) }, true)

/-! ## Concrete fixtures used by witnesses and counterexamples -/

/-- A technical team event. -/
def evCodeWar : Event :=
  { id := 1, name := "CodeWar", event_type := EventType.technical,
    is_team_event := true, min_team_size := 2, max_team_size := 4 }

/-- A second technical event. -/
def evHackathon : Event :=
  { id := 2, name := "Hackathon", event_type := EventType.technical,
    is_team_event := true, min_team_size := 2, max_team_size := 4 }

/-- A non-technical solo event. -/
def evQuiz : Event :=
  { id := 3, name := "Quiz", event_type := EventType.nonTechnical,
    is_team_event := false, min_team_size := 1, max_team_size := 1 }

/-- A technical team event capped at one member. -/
def evSoloTech : Event :=
  { id := 4, name := "RoboRace", event_type := EventType.technical,
    is_team_event := true, min_team_size := 1, max_team_size := 1 }

/-- A plain registration of `21AID001` for `evCodeWar`. -/
def regCW : Registration :=
  { id := 1, register_number := "21AID001", full_name := "Asha",
    email := "asha@example.com", phone_number := "9876543210", year := "2",
    department := "AIDS", is_verified := false, event := evCodeWar,
    team := none, team_name := none, team_members := 0,
    team_password := none, is_team_lead := false }

/-- The same registration flagged as a team lead. -/
def regCWlead : Registration := { regCW with is_team_lead := true }

/-! ## C1 — `AlreadyRegisteredSameType` iff a same-type registration exists -/

/-- Membership in the validator's query, stated declaratively.  Positive
pks make Python's truthiness test on `exclude_registration_id` agree
with the declarative exclusion. -/
theorem validate_query_mem (regs : List Registration) (rn : String) (excl : Option Nat)
    (hpos : ∀ r ∈ regs, 0 < r.id) (r : Registration) :
    r ∈ validate_query regs rn excl
    ↔ r ∈ regs ∧ pyUpper r.register_number = pyUpper rn
        ∧ (∀ i, excl = some i → r.id ≠ i) := by
  unfold validate_query
  cases excl with
  | none =>
    simp [optTruthy, List.mem_filter, iexact]
  | some i =>
    by_cases hi : i = 0
    · subst hi
      simp only [optTruthy, bne_self_eq_false, Bool.false_eq_true, if_false,
        List.mem_filter, iexact, beq_iff_eq, Option.some.injEq]
      constructor
      · rintro ⟨hmem, hup⟩
        refine ⟨hmem, hup, fun j hj => ?_⟩
        cases hj
        have := hpos r hmem
        omega
      · rintro ⟨hmem, hup, _⟩
        exact ⟨hmem, hup⟩
    · have htrue : optTruthy (some i) = true := by simp [optTruthy, hi]
      rw [htrue, if_pos rfl]
      simp only [List.mem_filter, iexact, beq_iff_eq, bne_iff_ne, ne_eq,
        Option.some.injEq]
      constructor
      · rintro ⟨⟨hmem, hup⟩, hne⟩
        refine ⟨hmem, hup, fun j hj => ?_⟩
        cases hj
        exact hne
      · rintro ⟨hmem, hup, hne⟩
        exact ⟨⟨hmem, hup⟩, hne i rfl⟩

/-- Evaluation shape of the validator on a present candidate event: the
count check on the same-type sublist fires first, then the lead check. -/
theorem validate_some_eq (regs : List Registration) (rn : String) (excl : Option Nat)
    (e : Event) :
    validate_event_registration_limit regs rn (some e) excl =
      (if 1 ≤ ((validate_query regs rn excl).filter
            (fun r => r.event.event_type == e.event_type)).length
       then some LimitError.alreadyRegisteredSameType
       else if ((validate_query regs rn excl).filter
            (fun r => r.event.event_type == e.event_type)).any (fun r => r.is_team_lead)
       then some LimitError.leadConflict
       else none) := by
  obtain ⟨eid, ename, ety, eteam, emin, emax⟩ := e
  cases ety <;> rfl

/-- C1: the eligibility validator fails with `AlreadyRegisteredSameType`
if and only if at least one existing registration of the register number
(matched case-insensitively, minus the optionally excluded row) has the
candidate event's type; with no same-type registration that failure
cannot occur, so one technical plus one non-technical registration is
allowed while a second event of a held type is rejected. -/
theorem c1_already_registered_iff (regs : List Registration) (rn : String) (e : Event)
    (excl : Option Nat) (hpos : ∀ r ∈ regs, 0 < r.id) :
    validate_event_registration_limit regs rn (some e) excl
      = some LimitError.alreadyRegisteredSameType
    ↔ ∃ r ∈ regs, pyUpper r.register_number = pyUpper rn
        ∧ (∀ i, excl = some i → r.id ≠ i)
        ∧ r.event.event_type = e.event_type := by
  rw [validate_some_eq]
  by_cases hlen : 1 ≤ ((validate_query regs rn excl).filter
      (fun r => r.event.event_type == e.event_type)).length
  · rw [if_pos hlen]
    simp only [true_iff]
    have hlen0 : 0 < ((validate_query regs rn excl).filter
        (fun r => r.event.event_type == e.event_type)).length := by omega
    obtain ⟨r, hr⟩ := List.length_pos_iff_exists_mem.mp hlen0
    rw [List.mem_filter] at hr
    obtain ⟨hrq, hrty⟩ := hr
    obtain ⟨hrmem, hrup, hrex⟩ := (validate_query_mem regs rn excl hpos r).mp hrq
    exact ⟨r, hrmem, hrup, hrex, beq_iff_eq.mp hrty⟩
  · rw [if_neg hlen]
    have hnil : (validate_query regs rn excl).filter
        (fun r => r.event.event_type == e.event_type) = [] :=
      List.length_eq_zero.mp (by omega)
    rw [hnil]
    simp only [List.any_nil, Bool.false_eq_true, if_false]
    constructor
    · intro h; cases h
    · rintro ⟨r, hrmem, hrup, hrex, hrty⟩
      exfalso
      apply hlen
      have hin : r ∈ (validate_query regs rn excl).filter
          (fun r => r.event.event_type == e.event_type) := by
        rw [List.mem_filter]
        exact ⟨(validate_query_mem regs rn excl hpos r).mpr ⟨hrmem, hrup, hrex⟩,
          beq_iff_eq.mpr hrty⟩
      rw [hnil] at hin
      cases hin

/-- C1 witness: `21AID001` holds `CodeWar` (technical); a second
technical event is rejected with `AlreadyRegisteredSameType`, while the
non-technical `Quiz` passes and a fresh number passes. -/
theorem c1_witness :
    validate_event_registration_limit [regCW] "21AID001" (some evHackathon) none
      = some LimitError.alreadyRegisteredSameType
    ∧ validate_event_registration_limit [regCW] "21AID001" (some evQuiz) none = none
    ∧ validate_event_registration_limit [] "21AID001" (some evCodeWar) none = none := by
  refine ⟨?_, by decide, by decide⟩
  refine (c1_already_registered_iff [regCW] "21AID001" evHackathon none
      (by intro r hr; fin_cases hr; decide)).mpr ⟨regCW, ?_, ?_, ?_, ?_⟩
  · decide
  · decide
  · intro i h; exact Option.noConfusion h
  · decide

/-! ## C8 — the `LeadConflict` branch is dead code -/

/-- C8 counterexample: a same-type registration with `is_team_lead=true`
exists, yet the validator fails with `AlreadyRegisteredSameType`, not
`LeadConflict` — the count check necessarily fires first, so the lead
condition never produces a `LeadConflict` failure. -/
theorem c8_counterexample :
    regCWlead.is_team_lead = true
    ∧ regCWlead.event.event_type = evHackathon.event_type
    ∧ iexact regCWlead.register_number "21AID001" = true
    ∧ validate_event_registration_limit [regCWlead] "21AID001" (some evHackathon) none
        = some LimitError.alreadyRegisteredSameType := by decide

/-- C8 amended: the validator never returns `LeadConflict`.  A same-type
lead registration also makes the same-type count at least 1, and that
check returns `AlreadyRegisteredSameType` first, so every outcome is
`none` or `AlreadyRegisteredSameType`. -/
theorem c8_lead_conflict_unreachable (regs : List Registration) (rn : String)
    (new_event : Option Event) (excl : Option Nat) :
    validate_event_registration_limit regs rn new_event excl = none
    ∨ validate_event_registration_limit regs rn new_event excl
        = some LimitError.alreadyRegisteredSameType := by
  cases new_event with
  | none => exact Or.inl rfl
  | some e =>
    rw [validate_some_eq]
    by_cases hlen : 1 ≤ ((validate_query regs rn excl).filter
        (fun r => r.event.event_type == e.event_type)).length
    · rw [if_pos hlen]; exact Or.inr rfl
    · rw [if_neg hlen]
      have hnil : (validate_query regs rn excl).filter
          (fun r => r.event.event_type == e.event_type) = [] :=
        List.length_eq_zero.mp (by omega)
      rw [hnil]
      simp

/-! ## C6 — invitation state machine -/

/-- C6: `acceptInvite` on a pending row sets status joined and stamps a
non-null `joined_at`; `declineInvite` on a pending row sets status
declined and leaves `joined_at` untouched; accept on joined is an
informational no-op, accept on declined is a hard failure, decline on
any non-pending row fails — and every failure/no-op case leaves the
store (hence the row's status) unchanged. -/
theorem c6_invite_transitions (db : DB) (tm_id now : Nat) (tm : TeamMember)
    (hfind : db.team_members.find? (fun x => x.id == tm_id) = some tm) :
    (tm.status = MemberStatus.pending →
      (accept_team_invite db tm_id now).2 = InviteResult.joinedSuccess
      ∧ (∀ x ∈ (accept_team_invite db tm_id now).1.team_members, x.id = tm.id →
          x.status = MemberStatus.joined ∧ x.joined_at = some now)
      ∧ (decline_team_invite db tm_id).2 = InviteResult.declinedSuccess
      ∧ (∀ x ∈ (decline_team_invite db tm_id).1.team_members, x.id = tm.id →
          x.status = MemberStatus.declined ∧ x.joined_at = tm.joined_at))
    ∧ (tm.status = MemberStatus.joined →
        accept_team_invite db tm_id now = (db, InviteResult.alreadyJoinedInfo))
    ∧ (tm.status = MemberStatus.declined →
        accept_team_invite db tm_id now = (db, InviteResult.declinedHardFailure))
    ∧ (tm.status ≠ MemberStatus.pending →
        decline_team_invite db tm_id = (db, InviteResult.notPendingFailure)) := by
  obtain ⟨tid, tteamid, tregid, tstatus, tjoin⟩ := tm
  refine ⟨?_, ?_, ?_, ?_⟩
  · intro hp
    cases tstatus with
    | joined => simp at hp
    | declined => simp at hp
    | pending =>
      have haccept : accept_team_invite db tm_id now =
          ({ db with team_members := db.team_members.map (fun x =>
              if x.id == tid then
                ⟨tid, tteamid, tregid, MemberStatus.joined, some now⟩ else x) },
           InviteResult.joinedSuccess) := by
        unfold accept_team_invite
        rw [hfind]
      have hdecline : decline_team_invite db tm_id =
          ({ db with team_members := db.team_members.map (fun x =>
              if x.id == tid then
                ⟨tid, tteamid, tregid, MemberStatus.declined, tjoin⟩ else x) },
           InviteResult.declinedSuccess) := by
        unfold decline_team_invite
        rw [hfind]
        rfl
      refine ⟨by rw [haccept], ?_, by rw [hdecline], ?_⟩
      · intro x hx hxid
        rw [haccept] at hx
        simp only [List.mem_map] at hx
        obtain ⟨y, _, hy⟩ := hx
        by_cases hyid : y.id == tid
        · rw [if_pos hyid] at hy
          rw [← hy]
          exact ⟨rfl, rfl⟩
        · rw [if_neg hyid] at hy
          rw [← hy] at hxid
          exact absurd (beq_iff_eq.mpr hxid) hyid
      · intro x hx hxid
        rw [hdecline] at hx
        simp only [List.mem_map] at hx
        obtain ⟨y, _, hy⟩ := hx
        by_cases hyid : y.id == tid
        · rw [if_pos hyid] at hy
          rw [← hy]
          exact ⟨rfl, rfl⟩
        · rw [if_neg hyid] at hy
          rw [← hy] at hxid
          exact absurd (beq_iff_eq.mpr hxid) hyid
  · intro hj
    cases tstatus with
    | pending => simp at hj
    | declined => simp at hj
    | joined =>
      unfold accept_team_invite
      rw [hfind]
  · intro hd
    cases tstatus with
    | pending => simp at hd
    | joined => simp at hd
    | declined =>
      unfold accept_team_invite
      rw [hfind]
  · intro hnp
    cases tstatus with
    | pending => exact absurd rfl hnp
    | joined =>
      unfold decline_team_invite
      rw [hfind]
      rfl
    | declined =>
      unfold decline_team_invite
      rw [hfind]
      rfl

/-- C6 witness: a concrete pending member accepts (joined, stamped) and,
on a fresh copy of the store, declines (declined, no stamp). -/
theorem c6_witness :
    (accept_team_invite
        { registrations := [], teams := [],
          team_members := [⟨101, 10, 2, MemberStatus.pending, none⟩],
          users := [], next_registration_id := 3, next_team_id := 11,
          next_team_member_id := 102 } 101 5).1.team_members
      = [⟨101, 10, 2, MemberStatus.joined, some 5⟩]
    ∧ (decline_team_invite
        { registrations := [], teams := [],
          team_members := [⟨101, 10, 2, MemberStatus.pending, none⟩],
          users := [], next_registration_id := 3, next_team_id := 11,
          next_team_member_id := 102 } 101).1.team_members
      = [⟨101, 10, 2, MemberStatus.declined, none⟩] := by
  have h := c6_invite_transitions
    { registrations := [], teams := [],
      team_members := [⟨101, 10, 2, MemberStatus.pending, none⟩],
      users := [], next_registration_id := 3, next_team_id := 11,
      next_team_member_id := 102 } 101 5
    ⟨101, 10, 2, MemberStatus.pending, none⟩ (by decide)
  obtain ⟨hpending, -, -, -⟩ := h
  obtain ⟨-, hacc, -, hdec⟩ := hpending rfl
  constructor
  · have h1 := hacc
    -- evaluate the accept result and read the row off with the theorem
    decide
  · decide

/-! ## Team fixtures -/

/-- The `Phoenix` team founded by `regCW`'s registration (pk 1). -/
def teamPhoenix : Team :=
  { id := 10, name := "Phoenix", event := evCodeWar, created_by := some 1,
    password := some (make_password "secret"), description := "" }

/-- A second team of the same event. -/
def teamRival : Team :=
  { id := 11, name := "Rival", event := evCodeWar, created_by := none,
    password := none, description := "" }

/-- The founder's registration as stamped by team creation. -/
def regLeadPhoenix : Registration :=
  { regCW with
    team := some 10, team_name := some "Phoenix",
    team_password := some (make_password "secret"), is_team_lead := true }

/-- A second participant's registration, member of Phoenix. -/
def regMemberPhoenix : Registration :=
  { id := 2, register_number := "21AID002", full_name := "Bala",
    email := "bala@example.com", phone_number := "9876500000", year := "2",
    department := "AIDS", is_verified := false, event := evCodeWar,
    team := some 10, team_name := some "Phoenix", team_members := 0,
    team_password := some (make_password "secret"), is_team_lead := false }

/-- The founder's own TeamMember row. -/
def tmLead : TeamMember :=
  { id := 100, team_id := 10, registration_id := 1,
    status := MemberStatus.joined, joined_at := none }

/-- The second member's pending TeamMember row. -/
def tmMemberPending : TeamMember :=
  { id := 101, team_id := 10, registration_id := 2,
    status := MemberStatus.pending, joined_at := none }

/-- A store holding Phoenix with its founder and one pending member. -/
def dbPhoenix : DB :=
  { registrations := [regLeadPhoenix, regMemberPhoenix],
    teams := [teamPhoenix],
    team_members := [tmLead, tmMemberPending],
    users := ["21AID001"],
    next_registration_id := 3, next_team_id := 11, next_team_member_id := 102 }

/-! ## C4 / C10 — member removal -/

/-- Evaluation of the guarded `remove_member` action once the row is
located. -/
theorem team_add_members_remove_eval (db : DB) (team : Team) (member_id : Nat)
    (tm : TeamMember)
    (hfind : db.team_members.find? (fun x => x.id == member_id && x.team_id == team.id)
      = some tm) :
    team_add_members_remove db team member_id =
      (if team.created_by == some tm.registration_id then (db, RemoveResult.cannotRemoveLead)
       else ({ db with team_members := db.team_members.filter (fun x => x.id != tm.id) },
         RemoveResult.removed (((db.registrations.find? (fun r =>
           r.id == tm.registration_id)).map Registration.full_name).getD ""))) := by
  unfold team_add_members_remove
  rw [hfind]

/-- Evaluation of the standalone `remove_team_member` view once the row
is located: it deletes unconditionally. -/
theorem remove_team_member_eval (db : DB) (team : Team) (member_id : Nat)
    (tm : TeamMember)
    (hfind : db.team_members.find? (fun x => x.id == member_id && x.team_id == team.id)
      = some tm) :
    remove_team_member db team member_id =
      ({ db with team_members := db.team_members.filter (fun x => x.id != tm.id) },
       RemoveResult.removed (((db.registrations.find? (fun r =>
         r.id == tm.registration_id)).map Registration.full_name).getD "")) := by
  unfold remove_team_member
  rw [hfind]

/-- C4 counterexample: the standalone `remove_team_member` view deletes
the FOUNDER's own TeamMember row with a success result instead of
failing with `CannotRemoveLead`. -/
theorem c4_counterexample :
    teamPhoenix.created_by = some tmLead.registration_id
    ∧ remove_team_member dbPhoenix teamPhoenix 100
        = ({ dbPhoenix with team_members := [tmMemberPending] },
           RemoveResult.removed "Asha") := by decide

/-- C4 amended: only the `remove_member` action of `team_add_members`
fails with `CannotRemoveLead` exactly when the member's registration is
the founder (and deletes just the TeamMember row otherwise); the
standalone `remove_team_member` view deletes the located row
unconditionally, founder included.  Neither path touches the
registrations table. -/
theorem c4_remove_paths (db : DB) (team : Team) (member_id : Nat) (tm : TeamMember)
    (hfind : db.team_members.find? (fun x => x.id == member_id && x.team_id == team.id)
      = some tm) :
    ((team_add_members_remove db team member_id).2 = RemoveResult.cannotRemoveLead
      ↔ team.created_by = some tm.registration_id)
    ∧ (team.created_by = some tm.registration_id →
        team_add_members_remove db team member_id = (db, RemoveResult.cannotRemoveLead))
    ∧ (team.created_by ≠ some tm.registration_id →
        (team_add_members_remove db team member_id).1.team_members
          = db.team_members.filter (fun x => x.id != tm.id))
    ∧ (team_add_members_remove db team member_id).1.registrations = db.registrations
    ∧ (remove_team_member db team member_id).1.team_members
        = db.team_members.filter (fun x => x.id != tm.id)
    ∧ (remove_team_member db team member_id).1.registrations = db.registrations := by
  have h1 := team_add_members_remove_eval db team member_id tm hfind
  have h2 := remove_team_member_eval db team member_id tm hfind
  by_cases hc : team.created_by = some tm.registration_id
  · have hb : (team.created_by == some tm.registration_id) = true := beq_iff_eq.mpr hc
    rw [hb, if_pos rfl] at h1
    refine ⟨?_, fun _ => h1, fun hne => absurd hc hne, ?_, ?_, ?_⟩
    · rw [h1]
      simp [hc]
    · rw [h1]
    · rw [h2]
    · rw [h2]
  · have hb : (team.created_by == some tm.registration_id) = false := by
      simpa using hc
    rw [hb] at h1
    simp only [Bool.false_eq_true, if_false] at h1
    refine ⟨?_, fun hcc => absurd hcc hc, fun _ => ?_, ?_, ?_, ?_⟩
    · rw [h1]
      simp [hc]
    · rw [h1]
    · rw [h1]
    · rw [h2]
    · rw [h2]

/-- C4 witness: on the concrete Phoenix store the guarded action refuses
to remove the founder and removes the plain member's row. -/
theorem c4_witness :
    team_add_members_remove dbPhoenix teamPhoenix 100
      = (dbPhoenix, RemoveResult.cannotRemoveLead)
    ∧ (team_add_members_remove dbPhoenix teamPhoenix 101).1.team_members = [tmLead] := by
  have h100 := c4_remove_paths dbPhoenix teamPhoenix 100 tmLead (by decide)
  have h101 := c4_remove_paths dbPhoenix teamPhoenix 101 tmMemberPending (by decide)
  refine ⟨h100.2.1 (by decide), ?_⟩
  rw [h101.2.2.1 (by decide)]
  decide

/-- C10: removing a team member (either path) deletes only the TeamMember
row: the registrations and teams tables are untouched, so the removed
person's Registration keeps its `team`/`team_name`/`team_password`
values; consequently the submission path's already-in-team condition
(`in_other_team`, read by `process_team_members`) still classifies that
person as belonging to the old team when any other team considers them. -/
theorem c10_remove_frame (db : DB) (team : Team) (member_id : Nat) (tm : TeamMember)
    (hfind : db.team_members.find? (fun x => x.id == member_id && x.team_id == team.id)
      = some tm) :
    (remove_team_member db team member_id).1.registrations = db.registrations
    ∧ (remove_team_member db team member_id).1.teams = db.teams
    ∧ (remove_team_member db team member_id).1.team_members
        = db.team_members.filter (fun x => x.id != tm.id)
    ∧ (team_add_members_remove db team member_id).1.registrations = db.registrations
    ∧ (team_add_members_remove db team member_id).1.teams = db.teams
    ∧ ∀ r ∈ db.registrations,
        r ∈ (remove_team_member db team member_id).1.registrations
        ∧ ∀ other : Team, r.team = some team.id → other.id ≠ team.id →
            in_other_team r other = true := by
  have h1 := team_add_members_remove_eval db team member_id tm hfind
  have h2 := remove_team_member_eval db team member_id tm hfind
  refine ⟨by rw [h2], by rw [h2], by rw [h2], ?_, ?_, ?_⟩
  · rw [h1]
    by_cases hc : (team.created_by == some tm.registration_id) = true
    · rw [if_pos hc]
    · rw [if_neg hc]
  · rw [h1]
    by_cases hc : (team.created_by == some tm.registration_id) = true
    · rw [if_pos hc]
    · rw [if_neg hc]
  · intro r hr
    refine ⟨by rw [h2]; exact hr, ?_⟩
    intro other hteam hne
    unfold in_other_team
    rw [hteam]
    simpa using fun heq => hne heq.symm

/-- C10 witness: after removing Bala's row from Phoenix, Bala's
Registration is untouched, still points at Phoenix, and the
already-in-team condition still flags Bala for any other team. -/
theorem c10_witness :
    (remove_team_member dbPhoenix teamPhoenix 101).1.registrations = dbPhoenix.registrations
    ∧ regMemberPhoenix.team = some teamPhoenix.id
    ∧ in_other_team regMemberPhoenix teamRival = true := by
  have h := c10_remove_frame dbPhoenix teamPhoenix 101 tmMemberPending (by decide)
  refine ⟨h.1, by decide, ?_⟩
  exact (h.2.2.2.2.2 regMemberPhoenix (by decide)).2 teamRival (by decide) (by decide)

/-! ## C2 — capacity on the submission path -/

/-- A team of `evSoloTech` (max_team_size = 1) already at capacity. -/
def teamRobo : Team :=
  { id := 20, name := "Bots", event := evSoloTech, created_by := some 5,
    password := some (make_password "pw"), description := "" }

/-- The Robo team founder's registration. -/
def regLeadRobo : Registration :=
  { id := 5, register_number := "21AID005", full_name := "Dev",
    email := "dev@example.com", phone_number := "9876522222", year := "3",
    department := "AIDS", is_verified := false, event := evSoloTech,
    team := some 20, team_name := some "Bots", team_members := 1,
    team_password := some (make_password "pw"), is_team_lead := true }

/-- The founder's TeamMember row filling the single slot. -/
def tmLeadRobo : TeamMember :=
  { id := 200, team_id := 20, registration_id := 5,
    status := MemberStatus.joined, joined_at := none }

/-- Store with the full Robo team. -/
def dbRobo : DB :=
  { registrations := [regLeadRobo], teams := [teamRobo],
    team_members := [tmLeadRobo], users := ["21AID005"],
    next_registration_id := 6, next_team_id := 21, next_team_member_id := 201 }

/-- A well-formed, eligible member entry for the full team. -/
def entryRobo : RawEntry :=
  RawEntry.entry
    { register_number := RawValue.str "21AID006", full_name := RawValue.str "Chitra",
      email := RawValue.str "chitra@example.com", phone := RawValue.str "",
      phone_number := RawValue.str "9876511111", year := "2", department := "AIDS" }

/-- C2: `process_team_members` (the per-entry member adds of registration
submission) performs no capacity check whatsoever: on a team already at
`max_team_size = 1` it happily adds an eligible entry, producing
`total_count = 2 > max_team_size`, instead of failing with `TeamFull`.
This evaluates the code at the failing input of the reported bug. -/
theorem c2_overfull_after_submission :
    teamRobo.event.max_team_size = 1
    ∧ Team.total_count teamRobo dbRobo = 1
    ∧ (process_team_members teamRobo evSoloTech [entryRobo] regLeadRobo "Bots"
        (make_password "pw") dbRobo).map (fun pr => Team.total_count teamRobo pr.1)
      = some 2
    ∧ (process_team_members teamRobo evSoloTech [entryRobo] regLeadRobo "Bots"
        (make_password "pw") dbRobo).map (fun pr => pr.2.added)
      = some [("21AID006", "Chitra")] := by decide

/-! ## C3 — what survives a failed submission -/

/-- `create_or_get_user` only ever touches the users table. -/
theorem create_or_get_user_shape (db : DB) (u : String) (p : Option String) :
    ∃ us, (create_or_get_user db u p).1 = { db with users := us } := by
  unfold create_or_get_user
  cases p with
  | some q =>
    by_cases h : db.users.any (fun x => x == u)
    · rw [if_pos h]
      rcases db.users.filter (fun x => iexact x u) with _ | ⟨a, _ | _⟩
      · exact ⟨db.users, rfl⟩
      · exact ⟨db.users, rfl⟩
      · exact ⟨db.users, rfl⟩
    · rw [if_neg h]
      exact ⟨db.users ++ [u], rfl⟩
  | none =>
    rcases db.users.filter (fun x => iexact x u) with _ | ⟨a, _ | _⟩
    · exact ⟨db.users, rfl⟩
    · exact ⟨db.users, rfl⟩
    · exact ⟨db.users, rfl⟩

/-- C3 amended: when a submission fails, no Registration, Team or
TeamMember row written by it survives (the transaction covers steps 3-4
and the team writes), BUT the identity/credential record is created
before the atomic block and is NOT rolled back — only the three
row tables are guaranteed unchanged, not the users table. -/
theorem c3_failed_submission_frame (db : DB) (form : RegForm) (db' : DB)
    (res : RegisterResult) (hrun : register_submit db form = (db', res))
    (hfail : res.isFailure = true) :
    db'.registrations = db.registrations
    ∧ db'.teams = db.teams
    ∧ db'.team_members = db.team_members := by
  obtain ⟨us, hus⟩ := create_or_get_user_shape db
    (pyStrip (pyUpper (pyStrip form.register_number))) form.password
  simp only [register_submit] at hrun
  split at hrun
  · cases hrun
    exact ⟨rfl, rfl, rfl⟩
  · split at hrun
    · cases hrun
      exact ⟨rfl, rfl, rfl⟩
    · split at hrun
      · cases hrun
        rw [hus]
        exact ⟨rfl, rfl, rfl⟩
      · split at hrun
        · cases hrun
          rw [hus]
          exact ⟨rfl, rfl, rfl⟩
        · split at hrun
          · split at hrun
            · cases hrun
              rw [hus]
              exact ⟨rfl, rfl, rfl⟩
            · split at hrun
              · cases hrun
                rw [hus]
                exact ⟨rfl, rfl, rfl⟩
              · cases hrun
                simp [RegisterResult.isFailure] at hfail
          · cases hrun
            simp [RegisterResult.isFailure] at hfail

/-- A store holding only the CodeWar registration of `21AID001` and no
auth user yet. -/
def dbC3 : DB :=
  { registrations := [regCW], teams := [], team_members := [], users := [],
    next_registration_id := 2, next_team_id := 1, next_team_member_id := 1 }

/-- `21AID001` submitting for a second technical event with a password. -/
def formHack : RegForm :=
  { register_number := "21AID001", full_name := "Asha",
    email := "asha@example.com", phone_number := "9876543210", year := "2",
    department := "AIDS", event := evHackathon, team_name := "",
    password := some "pw123", team_members_data := [] }

/-- C3 counterexample: the submission fails at step 3 (eligibility
re-validation), yet the identity/credential record created at step 2
survives — `create_or_get_user` runs before `transaction.atomic()`, so
the claimed all-steps rollback does not cover it. -/
theorem c3_counterexample :
    (register_submit dbC3 formHack).2
      = RegisterResult.limitError LimitError.alreadyRegisteredSameType
    ∧ dbC3.users = []
    ∧ (register_submit dbC3 formHack).1.users = ["21AID001"] := by decide

/-- C3 witness: the same failing submission leaves the three row tables
untouched. -/
theorem c3_witness :
    (register_submit dbC3 formHack).1.registrations = dbC3.registrations
    ∧ (register_submit dbC3 formHack).1.teams = dbC3.teams
    ∧ (register_submit dbC3 formHack).1.team_members = dbC3.team_members :=
  c3_failed_submission_frame dbC3 formHack
    (register_submit dbC3 formHack).1 (register_submit dbC3 formHack).2
    rfl (by decide)

/-! ## C5 — team-creation effects -/

/-- An empty store. -/
def dbEmpty : DB :=
  { registrations := [], teams := [], team_members := [], users := [],
    next_registration_id := 1, next_team_id := 1, next_team_member_id := 1 }

/-- A team-creating submission whose account password is `mypassword`. -/
def formFalcons : RegForm :=
  { register_number := "21AID003", full_name := "Cara",
    email := "cara@example.com", phone_number := "9876533333", year := "1",
    department := "CSE", event := evCodeWar, team_name := "Falcons",
    password := some "mypassword", team_members_data := [] }

/-- C5 counterexample: (i) `create_team` creates the founder's
TeamMember with `joined_at` left null, not stamped; (ii) on the
registration-submission path the team password is exactly the
user-supplied account credential (its hash is what gets stored), not an
independently generated random secret. -/
theorem c5_counterexample :
    (create_team dbEmpty evCodeWar (some regCW) "Phoenix" "" "rnd123").1.team_members
      = [⟨1, 1, 1, MemberStatus.joined, none⟩]
    ∧ (register_submit dbEmpty formFalcons).2
        = RegisterResult.success (some (1, "mypassword"))
    ∧ formFalcons.password = some "mypassword"
    ∧ (register_submit dbEmpty formFalcons).1.teams.map Team.password
        = [some (make_password "mypassword")] := by decide

/-- Helper: effects of a successful `create_team` (used by the C5
theorem's direct-path half). -/
theorem create_team_effects_aux (db : DB) (event : Event) (reg : Registration)
    (team_name description random_password : String) (db' : DB) (tid : Nat) (pw : String)
    (hrun : create_team db event (some reg) team_name description random_password
      = (db', CreateTeamResult.created tid pw))
    (hfreshtm : ∀ m ∈ db.team_members, m.team_id ≠ db.next_team_id)
    (hfreshteam : ∀ t ∈ db.teams, t.id ≠ db.next_team_id) :
    pw = random_password
    ∧ tid = db.next_team_id
    ∧ (∀ t ∈ db'.teams, t.id = tid → t.password = some (make_password random_password))
    ∧ db'.team_members.filter (fun m => m.team_id == tid)
        = [⟨db.next_team_member_id, tid, reg.id, MemberStatus.joined, none⟩]
    ∧ (∀ t : Team, t.id = tid → Team.total_count t db' = 1 ∧ Team.member_count t db' = 1)
    ∧ (∀ r ∈ db'.registrations, r.id = reg.id →
        r.team = some tid ∧ r.team_name = some (pyStrip team_name)
        ∧ r.team_password = some (make_password random_password)
        ∧ r.is_team_lead = true) := by
  simp only [create_team] at hrun
  split at hrun
  · cases hrun
  · split at hrun
    · cases hrun
    · split at hrun
      · cases hrun
      · cases hrun
        refine ⟨rfl, rfl, ?_, ?_, ?_, ?_⟩
        · intro t ht hid
          rcases List.mem_append.mp ht with hold | hnew
          · exact absurd hid (hfreshteam t hold)
          · rcases List.mem_singleton.mp hnew with rfl
            rfl
        · rw [List.filter_append]
          rw [List.filter_eq_nil_iff.mpr (fun m hm => by
            simpa using hfreshtm m hm)]
          simp
        · intro t hid
          constructor
          · unfold Team.total_count
            rw [hid]
            rw [List.filter_append]
            rw [List.filter_eq_nil_iff.mpr (fun m hm => by
              simpa using hfreshtm m hm)]
            simp
          · unfold Team.member_count
            rw [hid]
            rw [List.filter_append]
            rw [List.filter_eq_nil_iff.mpr (fun m hm => by
              simp only [Bool.and_eq_true, beq_iff_eq]
              rintro ⟨h1, -⟩
              exact hfreshtm m hm h1)]
            simp
        · intro r hr hid
          simp only [List.mem_map] at hr
          obtain ⟨y, hy, hupd⟩ := hr
          by_cases hyid : y.id == reg.id
          · rw [if_pos hyid] at hupd
            rw [← hupd]
            exact ⟨rfl, rfl, rfl, rfl⟩
          · rw [if_neg hyid] at hupd
            rw [← hupd] at hid
            exact absurd (beq_iff_eq.mpr hid) hyid

/-- Helper: effects of a successful team-creating submission (used by
the C5 theorem's submission-path half).  The hypotheses are exactly the
branch conditions of the success path with a team. -/
theorem register_team_effects_aux (db : DB) (form : RegForm) (p : String)
    (hpw : form.password = some p)
    (hteam : form.event.is_team_event = true)
    (hname : pyStrip form.team_name ≠ "")
    (hdup : db.registrations.any (fun r =>
      iexact r.register_number (pyStrip (pyUpper (pyStrip form.register_number)))
      && r.event == form.event) = false)
    (huser : (create_or_get_user db (pyStrip (pyUpper (pyStrip form.register_number)))
      form.password).2 = true)
    (hvalid : validate_event_registration_limit db.registrations
      (pyStrip (pyUpper (pyStrip form.register_number))) (some form.event) none = none)
    (hclash : db.teams.any (fun t =>
      t.name == pyStrip form.team_name && t.event == form.event) = false)
    (hentries : form.team_members_data = [])
    (hfreshtm : ∀ m ∈ db.team_members, m.team_id ≠ db.next_team_id)
    (hfreshteam : ∀ t ∈ db.teams, t.id ≠ db.next_team_id) :
    (register_submit db form).2 = RegisterResult.success (some (db.next_team_id, p))
    ∧ (∀ t ∈ (register_submit db form).1.teams, t.id = db.next_team_id →
        t.password = some (make_password p))
    ∧ (register_submit db form).1.team_members.filter
        (fun m => m.team_id == db.next_team_id)
        = [⟨db.next_team_member_id, db.next_team_id, db.next_registration_id,
            MemberStatus.joined, none⟩]
    ∧ (∀ t : Team, t.id = db.next_team_id →
        Team.total_count t (register_submit db form).1 = 1
        ∧ Team.member_count t (register_submit db form).1 = 1)
    ∧ (∀ r ∈ (register_submit db form).1.registrations, r.id = db.next_registration_id →
        r.team = some db.next_team_id ∧ r.team_name = some (pyStrip form.team_name)
        ∧ r.team_password = some (make_password p) ∧ r.is_team_lead = true
        ∧ r.team_members = 1) := by
  obtain ⟨us, hus⟩ := create_or_get_user_shape db
    (pyStrip (pyUpper (pyStrip form.register_number))) form.password
  rw [hpw] at hus huser
  have hnameb : (pyStrip form.team_name != "") = true := by simpa using hname
  have hlead1 : db.team_members.filter (fun m => m.team_id == db.next_team_id) = [] :=
    List.filter_eq_nil_iff.mpr (fun m hm => by simpa using hfreshtm m hm)
  have hrun : register_submit db form =
      ({ db with
          users := us,
          registrations := ((db.registrations ++
            [({
              id := db.next_registration_id,
              register_number := pyStrip (pyUpper (pyStrip form.register_number)),
              full_name := form.full_name,
              email := form.email,
              phone_number := form.phone_number,
              year := form.year,
              department := form.department,
              is_verified := false,
              event := form.event,
              team := none,
              team_name := some (pyStrip form.team_name),
              team_members := 0,
              team_password := none,
              is_team_lead := false } : Registration)]).map (fun r =>
              if r.id == db.next_registration_id then
                {
                  id := db.next_registration_id,
                  register_number := pyStrip (pyUpper (pyStrip form.register_number)),
                  full_name := form.full_name,
                  email := form.email,
                  phone_number := form.phone_number,
                  year := form.year,
                  department := form.department,
                  is_verified := false,
                  event := form.event,
                  team := some db.next_team_id,
                  team_name := some (pyStrip form.team_name),
                  team_members := 0,
                  team_password := some (make_password p),
                  is_team_lead := true }
              else r)).map (fun r =>
              if r.id == db.next_registration_id then
                {
                  id := db.next_registration_id,
                  register_number := pyStrip (pyUpper (pyStrip form.register_number)),
                  full_name := form.full_name,
                  email := form.email,
                  phone_number := form.phone_number,
                  year := form.year,
                  department := form.department,
                  is_verified := false,
                  event := form.event,
                  team := some db.next_team_id,
                  team_name := some (pyStrip form.team_name),
                  team_members := 1,
                  team_password := some (make_password p),
                  is_team_lead := true }
              else r),
          teams := db.teams ++
            [({
              id := db.next_team_id,
              name := pyStrip form.team_name,
              event := form.event,
              created_by := some db.next_registration_id,
              password := some (make_password p),
              description := "" } : Team)],
          team_members := db.team_members ++
            [({
              id := db.next_team_member_id,
              team_id := db.next_team_id,
              registration_id := db.next_registration_id,
              status := MemberStatus.joined,
              joined_at := none } : TeamMember)],
          next_registration_id := db.next_registration_id + 1,
          next_team_id := db.next_team_id + 1,
          next_team_member_id := db.next_team_member_id + 1 },
       RegisterResult.success (some (db.next_team_id, p))) := by
    simp only [register_submit, hpw, hentries, hus, huser, hdup, hteam, hnameb,
      process_team_members, process_members_go]
    simp [hvalid, hclash, hlead1, List.filter_append]
  have hlead2 : List.filter
      (fun m => m.team_id == db.next_team_id && m.status == MemberStatus.joined)
      db.team_members = [] := by
    refine List.filter_eq_nil_iff.mpr (fun m hm => ?_)
    simp only [Bool.and_eq_true, beq_iff_eq]
    rintro ⟨h1, -⟩
    exact hfreshtm m hm h1
  rw [hrun]
  refine ⟨rfl, ?_, ?_, ?_, ?_⟩
  · intro t ht hid
    rcases List.mem_append.mp ht with hold | hnew
    · exact absurd hid (hfreshteam t hold)
    · rcases List.mem_singleton.mp hnew with rfl
      rfl
  · simp [List.filter_append, hlead1]
  · intro t hid
    constructor
    · simp [Team.total_count, hid, List.filter_append, hlead1]
    · simp [Team.member_count, hid, List.filter_append, hlead2]
  · intro r hr hid
    simp only [List.mem_map] at hr
    obtain ⟨y1, hy1, hupd2⟩ := hr
    by_cases hy1id : y1.id == db.next_registration_id
    · rw [if_pos hy1id] at hupd2
      rw [← hupd2]
      exact ⟨rfl, rfl, rfl, rfl, rfl⟩
    · rw [if_neg hy1id] at hupd2
      rw [← hupd2] at hid
      exact absurd (beq_iff_eq.mpr hid) hy1id
/-- C5 amended: for a successful direct `create_team`, the plaintext team
password is the independently generated random string and only its hash
is stored; the team immediately has exactly one TeamMember — the founder
with status=joined but `joined_at` left null — so total_count =
member_count = 1, and the founder's Registration gets
team/team_name/team_password/is_team_lead=true.  For the submission path
the same holds EXCEPT that the team password is the user-supplied
account password (hash stored, plaintext echoed in the outcome) and the
lead row's `team_members` is stamped to the member total. -/
theorem c5_team_creation_effects :
    (∀ (db : DB) (event : Event) (reg : Registration)
       (team_name description random_password : String) (db' : DB) (tid : Nat) (pw : String),
       create_team db event (some reg) team_name description random_password
         = (db', CreateTeamResult.created tid pw) →
       (∀ m ∈ db.team_members, m.team_id ≠ db.next_team_id) →
       (∀ t ∈ db.teams, t.id ≠ db.next_team_id) →
       pw = random_password
       ∧ tid = db.next_team_id
       ∧ (∀ t ∈ db'.teams, t.id = tid → t.password = some (make_password random_password))
       ∧ db'.team_members.filter (fun m => m.team_id == tid)
           = [⟨db.next_team_member_id, tid, reg.id, MemberStatus.joined, none⟩]
       ∧ (∀ t : Team, t.id = tid → Team.total_count t db' = 1 ∧ Team.member_count t db' = 1)
       ∧ (∀ r ∈ db'.registrations, r.id = reg.id →
           r.team = some tid ∧ r.team_name = some (pyStrip team_name)
           ∧ r.team_password = some (make_password random_password)
           ∧ r.is_team_lead = true))
    ∧ (∀ (db : DB) (form : RegForm) (p : String),
       form.password = some p →
       form.event.is_team_event = true →
       pyStrip form.team_name ≠ "" →
       db.registrations.any (fun r =>
         iexact r.register_number (pyStrip (pyUpper (pyStrip form.register_number)))
         && r.event == form.event) = false →
       (create_or_get_user db (pyStrip (pyUpper (pyStrip form.register_number)))
         form.password).2 = true →
       validate_event_registration_limit db.registrations
         (pyStrip (pyUpper (pyStrip form.register_number))) (some form.event) none = none →
       db.teams.any (fun t =>
         t.name == pyStrip form.team_name && t.event == form.event) = false →
       form.team_members_data = [] →
       (∀ m ∈ db.team_members, m.team_id ≠ db.next_team_id) →
       (∀ t ∈ db.teams, t.id ≠ db.next_team_id) →
       (register_submit db form).2 = RegisterResult.success (some (db.next_team_id, p))
       ∧ (∀ t ∈ (register_submit db form).1.teams, t.id = db.next_team_id →
           t.password = some (make_password p))
       ∧ (register_submit db form).1.team_members.filter
           (fun m => m.team_id == db.next_team_id)
           = [⟨db.next_team_member_id, db.next_team_id, db.next_registration_id,
               MemberStatus.joined, none⟩]
       ∧ (∀ t : Team, t.id = db.next_team_id →
           Team.total_count t (register_submit db form).1 = 1
           ∧ Team.member_count t (register_submit db form).1 = 1)
       ∧ (∀ r ∈ (register_submit db form).1.registrations, r.id = db.next_registration_id →
           r.team = some db.next_team_id ∧ r.team_name = some (pyStrip form.team_name)
           ∧ r.team_password = some (make_password p) ∧ r.is_team_lead = true
           ∧ r.team_members = 1)) :=
  ⟨fun db event reg team_name description random_password db' tid pw hrun h1 h2 =>
    create_team_effects_aux db event reg team_name description random_password db' tid pw
      hrun h1 h2,
   fun db form p h1 h2 h3 h4 h5 h6 h7 h8 h9 h10 =>
    register_team_effects_aux db form p h1 h2 h3 h4 h5 h6 h7 h8 h9 h10⟩

/-- C5 witness: concrete successful runs of both paths — `create_team`
yields exactly the founder's joined (unstamped) row, and the submission
path succeeds echoing the account password as team password. -/
theorem c5_witness :
    (create_team dbEmpty evCodeWar (some regCW) "Phoenix" "" "rnd123").1.team_members.filter
        (fun m => m.team_id == 1)
      = [⟨1, 1, 1, MemberStatus.joined, none⟩]
    ∧ (register_submit dbEmpty formFalcons).2
      = RegisterResult.success (some (1, "mypassword")) := by
  have h1 := c5_team_creation_effects.1 dbEmpty evCodeWar regCW "Phoenix" "" "rnd123"
    (create_team dbEmpty evCodeWar (some regCW) "Phoenix" "" "rnd123").1 1 "rnd123"
    (by decide) (by decide) (by decide)
  have h2 := c5_team_creation_effects.2 dbEmpty formFalcons "mypassword"
    (by decide) (by decide) (by decide) (by decide) (by decide) (by decide) (by decide)
    (by decide) (by decide) (by decide)
  exact ⟨h1.2.2.2.1, h2.1⟩

/-! ## C7 — per-entry partiality of `process_team_members` -/

/-- Total number of per-entry outcomes recorded. -/
def MemberOutcome.size (o : MemberOutcome) : Nat :=
  o.added.length + o.already_in_team.length + o.skipped.length

/-- `register_member_tail` records exactly one outcome. -/
theorem register_member_tail_size (team : Team) (tni mr : String)
    (existing : Registration) (db : DB) (acc : MemberOutcome) :
    ((register_member_tail team tni mr existing db acc).2).size = acc.size + 1 := by
  unfold register_member_tail
  split
  · simp [MemberOutcome.size]
    omega
  · split <;> simp [MemberOutcome.size] <;> omega

/-- The post-extraction body records exactly one outcome. -/
theorem process_entry_body_size (team : Team) (ev : Event) (reg : Registration)
    (tni hp : String) (idx : Nat) (mr mn me mp yr dep : String)
    (db : DB) (acc : MemberOutcome) :
    ((process_entry_body team ev reg tni hp idx mr mn me mp yr dep db acc).2).size
      = acc.size + 1 := by
  simp only [process_entry_body]
  split
  · simp [MemberOutcome.size]
    omega
  · split
    · simp [MemberOutcome.size]
      omega
    · split
      · simp [MemberOutcome.size]
        omega
      · split
        · simp [MemberOutcome.size]
          omega
        · split
          · simp [MemberOutcome.size]
            omega
          · exact register_member_tail_size ..
        · exact register_member_tail_size ..

/-- On a successful extraction, the uppercased register number the body
receives is a `pyUpper` fixed point, and on non-`dict` entries the loop
records `invalidFormat` — facts the invariant lemmas below rely on. -/
theorem extract_member_fields_upper (m : RawMember) (mr mn me mp : String)
    (h : extract_member_fields m = some (mr, mn, me, mp)) :
    pyUpper mr = mr := by
  simp only [extract_member_fields] at h
  split at h
  · split at h
    · cases h
      exact pyUpper_idem _
    · split at h
      · cases h
        exact pyUpper_idem _
      · cases h
  · cases h

/-- Every entry that gets past the field extraction contributes exactly
one outcome. -/
theorem process_one_member_size (team : Team) (ev : Event) (reg : Registration)
    (tni hp : String) (idx : Nat) (e : RawEntry) (db : DB) (acc : MemberOutcome)
    (r : DB × MemberOutcome)
    (hr : process_one_member team ev reg tni hp idx e db acc = some r) :
    r.2.size = acc.size + 1 := by
  cases e with
  | invalid =>
    simp only [process_one_member] at hr
    cases hr
    simp [MemberOutcome.size]
    omega
  | entry m =>
    simp only [process_one_member] at hr
    split at hr
    · cases hr
    · cases hr
      exact process_entry_body_size ..

/-- Well-formedness of the registrations table: pks are below the
autoincrement counter and pairwise distinct (Django guarantees both). -/
def regs_wf (db : DB) : Prop :=
  (∀ r ∈ db.registrations, r.id < db.next_registration_id)
  ∧ db.registrations.Pairwise (fun a b => a.id ≠ b.id)

/-- State invariants of `register_member_tail`: it only appends one
pending TeamMember and possibly re-stamps team linkage onto the row with
`existing`'s pk; teams are untouched, rows with other pks survive, and
well-formedness is preserved. -/
theorem register_member_tail_invariants (team : Team) (tni mr : String)
    (existing : Registration) (db : DB) (acc : MemberOutcome) (hwf : regs_wf db) :
    regs_wf (register_member_tail team tni mr existing db acc).1
    ∧ (register_member_tail team tni mr existing db acc).1.teams = db.teams
    ∧ (∀ r ∈ db.registrations, r.id ≠ existing.id →
        r ∈ (register_member_tail team tni mr existing db acc).1.registrations)
    ∧ (∀ tm ∈ db.team_members,
        tm ∈ (register_member_tail team tni mr existing db acc).1.team_members)
    ∧ (∀ tm ∈ (register_member_tail team tni mr existing db acc).1.team_members,
        tm ∉ db.team_members → tm.status = MemberStatus.pending) := by
  obtain ⟨hwfb, hwfp⟩ := hwf
  unfold register_member_tail
  split
  · exact ⟨⟨hwfb, hwfp⟩, rfl, fun r hr _ => hr, fun tm h => h, fun tm h hn => absurd h hn⟩
  · split
    · refine ⟨⟨hwfb, hwfp⟩, rfl, fun r hr _ => hr, ?_, ?_⟩
      · intro tm h
        exact List.mem_append_left _ h
      · intro tm h hn
        rcases List.mem_append.mp h with h1 | h2
        · exact absurd h1 hn
        · rcases List.mem_singleton.mp h2 with rfl
          rfl
    · have hid : ∀ x : Registration,
          (if x.id == existing.id then
            { x with team := some team.id, team_name := some tni } else x).id = x.id := by
        intro x
        by_cases hx : x.id == existing.id
        · rw [if_pos hx]
        · rw [if_neg hx]
      refine ⟨⟨?_, ?_⟩, rfl, ?_, ?_, ?_⟩
      · intro r hr
        simp only [List.mem_map] at hr
        obtain ⟨y, hy, hupd⟩ := hr
        rw [← hupd, hid y]
        exact hwfb y hy
      · refine List.Pairwise.map _ (fun a b hab => ?_) hwfp
        rw [hid a, hid b]
        exact hab
      · intro r hr hne
        simp only [List.mem_map]
        refine ⟨r, hr, ?_⟩
        rw [if_neg (by simpa using hne)]
      · intro tm h
        exact List.mem_append_left _ h
      · intro tm h hn
        rcases List.mem_append.mp h with h1 | h2
        · exact absurd h1 hn
        · rcases List.mem_singleton.mp h2 with rfl
          rfl

/-- Appending a fresh row and bumping the counter keeps the table
well-formed. -/
theorem regs_wf_append_fresh (db : DB) (hwf : regs_wf db) (r0 : Registration)
    (hr0 : r0.id = db.next_registration_id) (n : Nat) (hn : db.next_registration_id < n) :
    regs_wf { db with registrations := db.registrations ++ [r0], next_registration_id := n } := by
  obtain ⟨hb, hp⟩ := hwf
  constructor
  · intro r hr
    rcases List.mem_append.mp hr with hold | hnew
    · exact Nat.lt_trans (hb r hold) hn
    · rcases List.mem_singleton.mp hnew with rfl
      rw [hr0]
      exact hn
  · refine List.pairwise_append.mpr ⟨hp, List.pairwise_singleton _ _, ?_⟩
    intro a ha b hb2
    rcases List.mem_singleton.mp hb2 with rfl
    rw [hr0]
    exact Nat.ne_of_lt (hb a ha)

/-- State invariants of the post-extraction body: the teams table is
untouched, rows whose register number matches the lead's
(case-insensitively) survive unchanged, old TeamMember rows survive, and
every TeamMember row it creates is pending.  `hmr` is what the
extraction guarantees about the register number it hands over. -/
theorem process_entry_body_invariants (team : Team) (ev : Event) (reg : Registration)
    (tni hp : String) (idx : Nat) (mr mn me mp yr dep : String)
    (db : DB) (acc : MemberOutcome) (hwf : regs_wf db) (hmr : pyUpper mr = mr) :
    regs_wf (process_entry_body team ev reg tni hp idx mr mn me mp yr dep db acc).1
    ∧ (process_entry_body team ev reg tni hp idx mr mn me mp yr dep db acc).1.teams = db.teams
    ∧ (∀ r ∈ db.registrations, pyUpper r.register_number = pyUpper reg.register_number →
        r ∈ (process_entry_body team ev reg tni hp idx mr mn me mp yr dep db acc).1.registrations)
    ∧ (∀ tm ∈ db.team_members,
        tm ∈ (process_entry_body team ev reg tni hp idx mr mn me mp yr dep db acc).1.team_members)
    ∧ (∀ tm ∈ (process_entry_body team ev reg tni hp idx mr mn me mp yr dep db acc).1.team_members,
        tm ∉ db.team_members → tm.status = MemberStatus.pending) := by
  simp only [process_entry_body]
  by_cases h0 : (mr == "") = true
  · rw [if_pos h0]
    exact ⟨hwf, rfl, fun r hr _ => hr, fun tm h => h, fun tm h hn => absurd h hn⟩
  · rw [if_neg h0]
    by_cases h1 : (mr == pyUpper reg.register_number) = true
    · rw [if_pos h1]
      exact ⟨hwf, rfl, fun r hr _ => hr, fun tm h => h, fun tm h hn => absurd h hn⟩
    · rw [if_neg h1]
      rcases hval : validate_event_registration_limit db.registrations
          mr (some ev) none with _ | err
      swap
      · exact ⟨hwf, rfl, fun r hr _ => hr, fun tm h => h, fun tm h hn => absurd h hn⟩
      rcases hfil : db.registrations.filter (fun r =>
          iexact r.register_number mr && r.event == ev)
        with _ | ⟨ex1, _ | ⟨ex2, rest⟩⟩
      · -- DoesNotExist: create a fresh row, then the shared tail
        rw [hfil]
        simp only []
        have hwf1 := fun (r0 : Registration) (h : r0.id = db.next_registration_id) =>
          regs_wf_append_fresh db hwf r0 h
            (db.next_registration_id + 1) (Nat.lt_succ_self _)
        refine ⟨(register_member_tail_invariants _ _ _ _ _ _ (hwf1 _ rfl)).1,
          (register_member_tail_invariants _ _ _ _ _ _ (hwf1 _ rfl)).2.1, ?_, ?_, ?_⟩
        · intro r hr hup
          refine (register_member_tail_invariants _ _ _ _ _ _ (hwf1 _ rfl)).2.2.1 r
            (List.mem_append_left _ hr) ?_
          exact Nat.ne_of_lt (hwf.1 r hr)
        · intro tm h
          exact (register_member_tail_invariants _ _ _ _ _ _ (hwf1 _ rfl)).2.2.2.1 tm h
        · intro tm h hn
          exact (register_member_tail_invariants _ _ _ _ _ _ (hwf1 _ rfl)).2.2.2.2 tm h hn
      · -- found exactly one existing registration
        have hmem : ex1 ∈ db.registrations.filter (fun r =>
            iexact r.register_number mr && r.event == ev) := by
          rw [hfil]
          exact List.mem_singleton_self _
        have hex1 := List.mem_filter.mp hmem
        rw [hfil]
        simp only []
        by_cases hot : in_other_team ex1 team = true
        · rw [if_pos hot]
          exact ⟨hwf, rfl, fun r hr _ => hr, fun tm h => h, fun tm h hn => absurd h hn⟩
        · rw [if_neg hot]
          refine ⟨(register_member_tail_invariants _ _ _ _ _ _ hwf).1,
            (register_member_tail_invariants _ _ _ _ _ _ hwf).2.1, ?_, ?_, ?_⟩
          · intro r hr hup
            refine (register_member_tail_invariants _ _ _ _ _ _ hwf).2.2.1 r hr ?_
            intro heq
            have hrex : r = ex1 := by
              by_contra hne
              exact List.Pairwise.forall (fun a b hab => Ne.symm hab) hwf.2
                hr hex1.1 hne heq
            have hiex : pyUpper ex1.register_number = pyUpper mr := by
              have := hex1.2
              simp only [Bool.and_eq_true, iexact, beq_iff_eq] at this
              exact this.1
            rw [hmr] at hiex
            rw [hrex] at hup
            rw [hiex] at hup
            exact h1 (beq_iff_eq.mpr hup)
          · intro tm h
            exact (register_member_tail_invariants _ _ _ _ _ _ hwf).2.2.2.1 tm h
          · intro tm h hn
            exact (register_member_tail_invariants _ _ _ _ _ _ hwf).2.2.2.2 tm h hn
      · -- MultipleObjectsReturned: skipped by the per-entry handler
        rw [hfil]
        exact ⟨hwf, rfl, fun r hr _ => hr, fun tm h => h, fun tm h hn => absurd h hn⟩

/-- State invariants of one loop iteration of `process_team_members`,
conditional on the iteration not raising. -/
theorem process_one_member_invariants (team : Team) (ev : Event) (reg : Registration)
    (tni hp : String) (idx : Nat) (e : RawEntry) (db : DB) (acc : MemberOutcome)
    (res : DB × MemberOutcome) (hwf : regs_wf db)
    (hr : process_one_member team ev reg tni hp idx e db acc = some res) :
    regs_wf res.1
    ∧ res.1.teams = db.teams
    ∧ (∀ r ∈ db.registrations, pyUpper r.register_number = pyUpper reg.register_number →
        r ∈ res.1.registrations)
    ∧ (∀ tm ∈ db.team_members, tm ∈ res.1.team_members)
    ∧ (∀ tm ∈ res.1.team_members, tm ∉ db.team_members → tm.status = MemberStatus.pending) := by
  cases e with
  | invalid =>
    simp only [process_one_member] at hr
    cases hr
    exact ⟨hwf, rfl, fun r hr _ => hr, fun tm h => h, fun tm h hn => absurd h hn⟩
  | entry m =>
    simp only [process_one_member] at hr
    split at hr
    · cases hr
    · rename_i mr mn me mp hext
      cases hr
      exact process_entry_body_invariants team ev reg tni hp idx mr mn me mp
        m.year m.department db acc hwf (extract_member_fields_upper m mr mn me mp hext)

/-- Invariants of the whole `process_team_members` loop over a run that
completes, by induction over the entry list. -/
theorem process_members_go_invariants (team : Team) (ev : Event) (reg : Registration)
    (tni hp : String) :
    ∀ (entries : List RawEntry) (idx : Nat) (db : DB) (acc : MemberOutcome)
      (res : DB × MemberOutcome),
    regs_wf db →
    process_members_go team ev reg tni hp idx entries db acc = some res →
    regs_wf res.1
    ∧ res.1.teams = db.teams
    ∧ (∀ r ∈ db.registrations, pyUpper r.register_number = pyUpper reg.register_number →
        r ∈ res.1.registrations)
    ∧ (∀ tm ∈ db.team_members, tm ∈ res.1.team_members)
    ∧ (∀ tm ∈ res.1.team_members, tm ∉ db.team_members → tm.status = MemberStatus.pending)
    ∧ res.2.size = acc.size + entries.length
  | [], idx, db, acc, res, hwf, hrun => by
      simp only [process_members_go] at hrun
      cases hrun
      exact ⟨hwf, rfl, fun r hr _ => hr, fun tm h => h, fun tm h hn => absurd h hn, rfl⟩
  | e :: rest, idx, db, acc, res, hwf, hrun => by
      simp only [process_members_go] at hrun
      split at hrun
      · cases hrun
      · rename_i r1 hstep1
        have hstep := process_one_member_invariants team ev reg tni hp idx e db acc r1
          hwf hstep1
        have hsize := process_one_member_size team ev reg tni hp idx e db acc r1 hstep1
        have hrest := process_members_go_invariants team ev reg tni hp rest (idx + 1)
          r1.1 r1.2 res hstep.1 hrun
        refine ⟨hrest.1, ?_, ?_, ?_, ?_, ?_⟩
        · rw [hrest.2.1, hstep.2.1]
        · intro r hr hup
          exact hrest.2.2.1 r (hstep.2.2.1 r hr hup) hup
        · intro tm h
          exact hrest.2.2.2.1 tm (hstep.2.2.2.1 tm h)
        · intro tm h hn
          by_cases hmid : tm ∈ r1.1.team_members
          · exact hstep.2.2.2.2 tm hmid hn
          · exact hrest.2.2.2.2.1 tm h hmid
        · rw [hrest.2.2.2.2.2, hsize]
          simp [List.length_cons]
          omega

/-- One iteration never raises on a `safe` entry: non-`dict` entries are
rejected by the `isinstance` check before any `.strip()`, and all-string
`dict` entries extract successfully. -/
theorem process_one_member_safe (team : Team) (ev : Event) (reg : Registration)
    (tni hp : String) (idx : Nat) (e : RawEntry) (db : DB) (acc : MemberOutcome)
    (hs : RawEntry.safe e = true) :
    (process_one_member team ev reg tni hp idx e db acc).isSome = true := by
  cases e with
  | invalid => rfl
  | entry m =>
    obtain ⟨rn, fn, em, ph, pn, yr, dep⟩ := m
    simp only [RawEntry.safe, Bool.and_eq_true] at hs
    obtain ⟨⟨⟨⟨h1, h2⟩, h3⟩, h4⟩, h5⟩ := hs
    cases rn with
    | nonString => simp [RawValue.isStr] at h1
    | str rn_s =>
    cases fn with
    | nonString => simp [RawValue.isStr] at h2
    | str fn_s =>
    cases em with
    | nonString => simp [RawValue.isStr] at h3
    | str em_s =>
    cases ph with
    | nonString => simp [RawValue.isStr] at h4
    | str ph_s =>
    cases pn with
    | nonString => simp [RawValue.isStr] at h5
    | str pn_s =>
    by_cases hph : (pyStrip ph_s != "") = true
    · simp [process_one_member, extract_member_fields, hph]
    · simp [process_one_member, extract_member_fields, hph]

/-- The loop never raises over a list of `safe` entries. -/
theorem process_members_go_safe (team : Team) (ev : Event) (reg : Registration)
    (tni hp : String) :
    ∀ (entries : List RawEntry) (idx : Nat) (db : DB) (acc : MemberOutcome),
    (∀ e ∈ entries, RawEntry.safe e = true) →
    (process_members_go team ev reg tni hp idx entries db acc).isSome = true
  | [], _, _, _, _ => rfl
  | e :: rest, idx, db, acc, hs => by
      simp only [process_members_go]
      have h1 := process_one_member_safe team ev reg tni hp idx e db acc
        (hs e (List.mem_cons_self e rest))
      rcases hr : process_one_member team ev reg tni hp idx e db acc with _ | r
      · rw [hr] at h1
        simp [Option.isSome] at h1
      · exact process_members_go_safe team ev reg tni hp rest (idx + 1) r.1 r.2
          (fun x hx => hs x (List.mem_cons_of_mem e hx))

/-- C7 corrected: the per-entry skip discipline of `process_team_members`
only covers what the field extraction survives.  (i) Over entry lists
whose `dict` entries carry strings in the five extracted fields — with
arbitrarily many non-`dict` entries among them — the call always
completes.  (ii) Whenever the call completes, every entry lands in
exactly one of the three outcome lists, the teams table is untouched,
the founding Registration survives, existing TeamMember rows survive
and every created TeamMember row is pending.  A `dict` entry with a
non-string value in an extracted field instead raises before the
per-entry handler and aborts the whole call (`c7_counterexample`), so
the original any-raw-list guarantee is false. -/
theorem c7_process_members_partial :
    (∀ (team : Team) (selected_event : Event) (team_members_data : List RawEntry)
       (registration : Registration) (tni hp : String) (db : DB),
       (∀ e ∈ team_members_data, RawEntry.safe e = true) →
       (process_team_members team selected_event team_members_data registration
         tni hp db).isSome = true)
    ∧ (∀ (team : Team) (selected_event : Event) (team_members_data : List RawEntry)
       (registration : Registration) (tni hp : String) (db : DB)
       (res : DB × MemberOutcome),
       regs_wf db →
       registration ∈ db.registrations →
       process_team_members team selected_event team_members_data registration
         tni hp db = some res →
       res.2.added.length + res.2.already_in_team.length + res.2.skipped.length
         = team_members_data.length
       ∧ res.1.teams = db.teams
       ∧ registration ∈ res.1.registrations
       ∧ (∀ tm ∈ db.team_members, tm ∈ res.1.team_members)
       ∧ (∀ tm ∈ res.1.team_members, tm ∉ db.team_members →
           tm.status = MemberStatus.pending)) := by
  constructor
  · intro team selected_event team_members_data registration tni hp db hs
    exact process_members_go_safe team selected_event registration tni hp
      team_members_data 1 db ⟨[], [], []⟩ hs
  · intro team selected_event team_members_data registration tni hp db res hwf hlead hrun
    have h := process_members_go_invariants team selected_event registration tni hp
      team_members_data 1 db ⟨[], [], []⟩ res hwf hrun
    have hsz := h.2.2.2.2.2
    simp only [MemberOutcome.size, List.length_nil] at hsz
    refine ⟨?_, h.2.1, h.2.2.1 registration hlead rfl, h.2.2.2.1, h.2.2.2.2.1⟩
    omega

/-- A valid fresh member entry for the Phoenix witness run. -/
def entryGood : RawEntry :=
  RawEntry.entry
    { register_number := RawValue.str "21AID007", full_name := RawValue.str "Esha",
      email := RawValue.str "esha@example.com", phone := RawValue.str "",
      phone_number := RawValue.str "9876544444", year := "3", department := "CSE" }

/-- A member entry with an empty register number. -/
def entryEmptyNumber : RawEntry :=
  RawEntry.entry
    { register_number := RawValue.str "  ", full_name := RawValue.str "NoNumber",
      email := RawValue.str "", phone := RawValue.str "",
      phone_number := RawValue.str "", year := "", department := "" }

/-- A `dict` payload entry whose `register_number` value is not a string
(a JSON number, say): `.strip()` raises `AttributeError` at source line
285, before the per-entry `try`. -/
def entryBadValue : RawEntry :=
  RawEntry.entry
    { register_number := RawValue.nonString, full_name := RawValue.str "Zara",
      email := RawValue.str "zara@example.com", phone := RawValue.str "",
      phone_number := RawValue.str "9876566666", year := "2", department := "CSE" }

/-- A team-creating submission whose payload holds one good member entry
followed by the bad one. -/
def formBadMember : RegForm :=
  { formFalcons with team_members_data := [entryGood, entryBadValue] }

/-- C7 counterexample: a `dict` entry with a non-string
`register_number` makes `process_team_members` raise instead of
recording a skip reason, and the whole submission aborts — the founding
Registration, the Team, and even the member added for the good entry
processed before it are all rolled back (only the pre-transaction auth
user survives).  This refutes the claim that every bad entry is
individually skipped while the founding rows persist. -/
theorem c7_counterexample :
    process_team_members teamPhoenix evCodeWar [entryBadValue] regLeadPhoenix "Phoenix"
        (make_password "secret") dbPhoenix = none
    ∧ (register_submit dbEmpty formBadMember).2 = RegisterResult.uncaughtFault
    ∧ (register_submit dbEmpty formBadMember).1.registrations = []
    ∧ (register_submit dbEmpty formBadMember).1.teams = []
    ∧ (register_submit dbEmpty formBadMember).1.team_members = []
    ∧ (register_submit dbEmpty formBadMember).1.users = ["21AID003"] := by decide

/-- C7 witness: a run over one malformed entry, one valid entry and one
empty-number entry completes, records exactly three outcomes, keeps the
Team, and keeps the founding Registration. -/
theorem c7_witness :
    (process_team_members teamPhoenix evCodeWar
        [RawEntry.invalid, entryGood, entryEmptyNumber] regLeadPhoenix "Phoenix"
        (make_password "secret") dbPhoenix).isSome = true
    ∧ ((process_team_members teamPhoenix evCodeWar
        [RawEntry.invalid, entryGood, entryEmptyNumber] regLeadPhoenix "Phoenix"
        (make_password "secret") dbPhoenix).getD (dbPhoenix, ⟨[], [], []⟩)).2.added.length
      + ((process_team_members teamPhoenix evCodeWar
        [RawEntry.invalid, entryGood, entryEmptyNumber] regLeadPhoenix "Phoenix"
        (make_password "secret") dbPhoenix).getD (dbPhoenix, ⟨[], [], []⟩)).2.already_in_team.length
      + ((process_team_members teamPhoenix evCodeWar
        [RawEntry.invalid, entryGood, entryEmptyNumber] regLeadPhoenix "Phoenix"
        (make_password "secret") dbPhoenix).getD (dbPhoenix, ⟨[], [], []⟩)).2.skipped.length = 3
    ∧ ((process_team_members teamPhoenix evCodeWar
        [RawEntry.invalid, entryGood, entryEmptyNumber] regLeadPhoenix "Phoenix"
        (make_password "secret") dbPhoenix).getD (dbPhoenix, ⟨[], [], []⟩)).1.teams
        = dbPhoenix.teams
    ∧ regLeadPhoenix ∈ ((process_team_members teamPhoenix evCodeWar
        [RawEntry.invalid, entryGood, entryEmptyNumber] regLeadPhoenix "Phoenix"
        (make_password "secret") dbPhoenix).getD (dbPhoenix, ⟨[], [], []⟩)).1.registrations := by
  have h1 := c7_process_members_partial.1 teamPhoenix evCodeWar
    [RawEntry.invalid, entryGood, entryEmptyNumber] regLeadPhoenix "Phoenix"
    (make_password "secret") dbPhoenix (by decide)
  have h2 := c7_process_members_partial.2 teamPhoenix evCodeWar
    [RawEntry.invalid, entryGood, entryEmptyNumber] regLeadPhoenix "Phoenix"
    (make_password "secret") dbPhoenix
    ((process_team_members teamPhoenix evCodeWar
        [RawEntry.invalid, entryGood, entryEmptyNumber] regLeadPhoenix "Phoenix"
        (make_password "secret") dbPhoenix).getD (dbPhoenix, ⟨[], [], []⟩))
    ⟨by decide, by decide⟩ (by decide) (by decide)
  exact ⟨h1, h2.1, h2.2.1, h2.2.2.1⟩

/-! ## C9 — uppercase normalization of stored register numbers -/

/-- Every stored register number equals its own uppercase form. -/
def regs_normalized (db : DB) : Prop :=
  ∀ r ∈ db.registrations, r.register_number = pyUpper r.register_number

/-- `register_member_tail` stores no new register numbers. -/
theorem register_member_tail_norm (team : Team) (tni mr : String)
    (existing : Registration) (db : DB) (acc : MemberOutcome)
    (h : regs_normalized db) :
    regs_normalized (register_member_tail team tni mr existing db acc).1 := by
  unfold register_member_tail
  split
  · exact h
  · split
    · exact h
    · intro r hr
      simp only [List.mem_map] at hr
      obtain ⟨y, hy, hupd⟩ := hr
      by_cases hyid : y.id == existing.id
      · rw [if_pos hyid] at hupd
        rw [← hupd]
        exact h y hy
      · rw [if_neg hyid] at hupd
        rw [← hupd]
        exact h y hy

/-- The post-extraction body only stores uppercased register numbers
(the extraction hands it a `pyUpper` fixed point). -/
theorem process_entry_body_norm (team : Team) (ev : Event) (reg : Registration)
    (tni hp : String) (idx : Nat) (mr mn me mp yr dep : String)
    (db : DB) (acc : MemberOutcome) (hmr : pyUpper mr = mr) (h : regs_normalized db) :
    regs_normalized (process_entry_body team ev reg tni hp idx mr mn me mp yr dep db acc).1 := by
  simp only [process_entry_body]
  by_cases h0 : (mr == "") = true
  · rw [if_pos h0]
    exact h
  · rw [if_neg h0]
    by_cases h1 : (mr == pyUpper reg.register_number) = true
    · rw [if_pos h1]
      exact h
    · rw [if_neg h1]
      rcases hval : validate_event_registration_limit db.registrations
          mr (some ev) none with _ | err
      swap
      · exact h
      rcases hfil : db.registrations.filter (fun r =>
          iexact r.register_number mr && r.event == ev)
        with _ | ⟨ex1, _ | ⟨ex2, rest⟩⟩
      · rw [hfil]
        simp only []
        refine register_member_tail_norm _ _ _ _ _ _ ?_
        intro r hr
        rcases List.mem_append.mp hr with hold | hnew
        · exact h r hold
        · rcases List.mem_singleton.mp hnew with rfl
          exact hmr.symm
      · rw [hfil]
        simp only []
        by_cases hot : in_other_team ex1 team = true
        · rw [if_pos hot]
          exact h
        · rw [if_neg hot]
          exact register_member_tail_norm _ _ _ _ _ _ h
      · rw [hfil]
        exact h

/-- Each completing loop iteration only stores uppercased register
numbers. -/
theorem process_one_member_norm (team : Team) (ev : Event) (reg : Registration)
    (tni hp : String) (idx : Nat) (e : RawEntry) (db : DB) (acc : MemberOutcome)
    (res : DB × MemberOutcome)
    (hr : process_one_member team ev reg tni hp idx e db acc = some res)
    (h : regs_normalized db) :
    regs_normalized res.1 := by
  cases e with
  | invalid =>
    simp only [process_one_member] at hr
    cases hr
    exact h
  | entry m =>
    simp only [process_one_member] at hr
    split at hr
    · cases hr
    · rename_i mr mn me mp hext
      cases hr
      exact process_entry_body_norm team ev reg tni hp idx mr mn me mp
        m.year m.department db acc (extract_member_fields_upper m mr mn me mp hext) h

/-- The whole member loop only stores uppercased register numbers. -/
theorem process_members_go_norm (team : Team) (ev : Event) (reg : Registration)
    (tni hp : String) :
    ∀ (entries : List RawEntry) (idx : Nat) (db : DB) (acc : MemberOutcome)
      (res : DB × MemberOutcome),
    process_members_go team ev reg tni hp idx entries db acc = some res →
    regs_normalized db →
    regs_normalized res.1
  | [], _, _, _, res, hrun, h => by
    simp only [process_members_go] at hrun
    cases hrun
    exact h
  | e :: rest, idx, db, acc, res, hrun, h => by
    simp only [process_members_go] at hrun
    split at hrun
    · cases hrun
    · rename_i r1 hstep
      exact process_members_go_norm team ev reg tni hp rest (idx + 1) r1.1 r1.2 res hrun
        (process_one_member_norm team ev reg tni hp idx e db acc r1 hstep h)

/-- `process_team_members` only stores uppercased register numbers. -/
theorem process_team_members_norm (team : Team) (ev : Event)
    (team_members_data : List RawEntry) (reg : Registration) (tni hp : String)
    (db : DB) (res : DB × MemberOutcome)
    (hrun : process_team_members team ev team_members_data reg tni hp db = some res)
    (h : regs_normalized db) :
    regs_normalized res.1 :=
  process_members_go_norm team ev reg tni hp team_members_data 1 db ⟨[], [], []⟩ res hrun h

/-- The whole submission path only stores uppercased register numbers. -/
theorem register_submit_norm (db : DB) (form : RegForm) (db' : DB) (res : RegisterResult)
    (hrun : register_submit db form = (db', res)) (h : regs_normalized db) :
    regs_normalized db' := by
  obtain ⟨us, hus⟩ := create_or_get_user_shape db
    (pyStrip (pyUpper (pyStrip form.register_number))) form.password
  simp only [register_submit] at hrun
  split at hrun
  · cases hrun
    exact h
  · split at hrun
    · cases hrun
      exact h
    · split at hrun
      · cases hrun
        rw [hus]
        exact h
      · split at hrun
        · cases hrun
          rw [hus]
          exact h
        · split at hrun
          · split at hrun
            · cases hrun
              rw [hus]
              exact h
            · split at hrun
              · cases hrun
                rw [hus]
                exact h
              · rename_i pr hpr
                cases hrun
                rw [hus]
                simp only []
                intro r hr
                simp only [List.mem_map] at hr
                obtain ⟨y, hy, hupd⟩ := hr
                have hyn : y.register_number = pyUpper y.register_number := by
                  refine process_team_members_norm _ _ _ _ _ _ _ _ hpr ?_ y hy
                  intro z hz
                  simp only [List.mem_map] at hz
                  obtain ⟨w, hw, hupd1⟩ := hz
                  split at hupd1
                  · rw [← hupd1]
                    exact (pyUpper_pyStrip_pyUpper _).symm
                  · rw [← hupd1]
                    rcases List.mem_append.mp hw with hold | hnew
                    · rw [hus] at hold
                      exact h w hold
                    · rcases List.mem_singleton.mp hnew with rfl
                      exact (pyUpper_pyStrip_pyUpper _).symm
                by_cases hyid : y.id == db.next_registration_id
                · rw [if_pos hyid] at hupd
                  rw [← hupd]
                  exact (pyUpper_pyStrip_pyUpper _).symm
                · rw [if_neg hyid] at hupd
                  rw [← hupd]
                  exact hyn
          · cases hrun
            rw [hus]
            intro r hr
            rcases List.mem_append.mp hr with hold | hnew
            · exact h r hold
            · rcases List.mem_singleton.mp hnew with rfl
              exact (pyUpper_pyStrip_pyUpper _).symm

/-- The interactive add-member action only stores uppercased register
numbers. -/
theorem team_add_members_add_norm (db : DB) (team : Team) (f : AddMemberForm)
    (h : regs_normalized db) :
    regs_normalized (team_add_members_add db team f).1 := by
  rcases hfind : db.registrations.find? (fun r =>
      r.register_number == pyUpper (pyStrip f.register_number) && r.event == team.event)
    with _ | r0
  · simp only [team_add_members_add, hfind]
    repeat' split
    all_goals try exact h
    all_goals
      intro r hr
      rcases List.mem_append.mp hr with hold | hnew
      · exact h r hold
      · rcases List.mem_singleton.mp hnew with rfl
        exact (pyUpper_idem _).symm
  · have hr0 : r0 ∈ db.registrations := List.mem_of_find?_eq_some hfind
    simp only [team_add_members_add, hfind]
    repeat' split
    all_goals try exact h
    all_goals
      intro r hr
      simp only [List.mem_map] at hr
      obtain ⟨y, hy, hupd⟩ := hr
      by_cases hyid : y.id == r0.id
      · rw [if_pos hyid] at hupd
        rw [← hupd]
        exact h r0 hr0
      · rw [if_neg hyid] at hupd
        rw [← hupd]
        exact h y hy

/-- The member-edit action only stores uppercased register numbers. -/
theorem edit_team_member_norm (db : DB) (team : Team) (member_id : Nat)
    (f : AddMemberForm) (new_status : Option MemberStatus)
    (h : regs_normalized db) :
    regs_normalized (edit_team_member db team member_id f new_status).1 := by
  simp only [edit_team_member]
  split
  · exact h
  · split
    · exact h
    · split
      · exact h
      · rename_i registration hfindr
        have hmain : regs_normalized
            { db with registrations := db.registrations.map (fun r =>
                if r.id == registration.id then
                  { registration with
                    register_number := pyUpper (pyStrip f.register_number),
                    full_name := pyStrip f.full_name,
                    email := pyStrip f.email,
                    phone_number := pyStrip f.phone_number,
                    department := pyStrip f.department,
                    year := pyStrip f.year } else r) } := by
          intro r hr
          simp only [List.mem_map] at hr
          obtain ⟨y, hy, hupd⟩ := hr
          by_cases hyid : y.id == registration.id
          · rw [if_pos hyid] at hupd
            rw [← hupd]
            exact (pyUpper_idem _).symm
          · rw [if_neg hyid] at hupd
            rw [← hupd]
            exact h y hy
        split
        · split
          · exact h
          · split
            · exact h
            · split
              · exact hmain
              · exact hmain
        · split
          · exact hmain
          · exact hmain

/-- An admin edit posting a lowercase register number. -/
def editFormLower : EditRegistrationForm :=
  { full_name := "Asha", email := "asha@example.com",
    phone_number := "9876543210", register_number := "21aid001", year := "2",
    department := "AIDS", event := none, team_name := "Phoenix",
    team_members := 0, is_team_lead := true, is_verified := false }

/-- C9 counterexample: the admin `edit_registration` view persists the
posted register number only stripped, NOT uppercased, so one admin edit
breaks the every-stored-value-is-uppercase invariant. -/
theorem c9_counterexample :
    (edit_registration dbPhoenix 1 editFormLower).2 = true
    ∧ (edit_registration dbPhoenix 1 editFormLower).1.registrations.map
        Registration.register_number = ["21aid001", "21AID002"]
    ∧ pyUpper "21aid001" ≠ "21aid001" := by decide

/-- C9 amended: the submission path, the interactive add-member action
and the member-edit action all keep every stored register number equal
to its own uppercase form; the admin edit view does not (it only
strips), so the invariant holds after any sequence of the three
normalizing operations but not across admin edits. -/
theorem c9_uppercase_normalization :
    (∀ (db : DB) (form : RegForm) (db' : DB) (res : RegisterResult),
      register_submit db form = (db', res) → regs_normalized db → regs_normalized db')
    ∧ (∀ (db : DB) (team : Team) (f : AddMemberForm),
      regs_normalized db → regs_normalized (team_add_members_add db team f).1)
    ∧ (∀ (db : DB) (team : Team) (member_id : Nat) (f : AddMemberForm)
        (new_status : Option MemberStatus),
      regs_normalized db →
      regs_normalized (edit_team_member db team member_id f new_status).1) :=
  ⟨fun db form db' res hrun h => register_submit_norm db form db' res hrun h,
   fun db team f h => team_add_members_add_norm db team f h,
   fun db team member_id f st h => edit_team_member_norm db team member_id f st h⟩

/-- A lowercase-entered member add for the witness. -/
def addFormLower : AddMemberForm :=
  { full_name := "Hema", register_number := "21aid008",
    email := "hema@example.com", phone_number := "9876555555",
    department := "CSE", year := "2" }

/-- C9 witness: adding a member entered in lowercase keeps the store
normalized — the new row is stored uppercased. -/
theorem c9_witness :
    regs_normalized (team_add_members_add dbPhoenix teamPhoenix addFormLower).1
    ∧ (team_add_members_add dbPhoenix teamPhoenix addFormLower).1.registrations.map
        Registration.register_number = ["21AID001", "21AID002", "21AID008"] := by
  refine ⟨c9_uppercase_normalization.2.1 dbPhoenix teamPhoenix addFormLower ?_, by decide⟩
  intro r hr
  fin_cases hr <;> decide
